import Mathlib

/-!
# Multi-GPU exercises: a shallow embedding

Embedding of three programs of the repository:

* `multi-gpu/multigpu/multigpu.cpp`  (namespace `MultiGpu`)
* `multi-gpu/mpi/solution/mpiexample.cpp`  (namespace `MpiExample`)
* `multi-gpu/p2pcopy/solution/p2pcopy.cpp`  (namespace `P2pCopy`)

Conventions.

* A C `int` is an `Int`; results of `int` arithmetic are wrapped by `wrapInt32`,
  values stored in `unsigned int` by `wrapUInt32`.
* A buffer of `double` is a `List α` whose length is the number of allocated
  elements.  The element type `α` and the arithmetic on it are parameters, so that
  data-flow results hold for every interpretation of `double` arithmetic.
* An access outside a buffer is undefined behaviour in the source; the embedding
  returns `none` there.
* The threads of a launch run one after the other, blocks and threads in increasing
  order.  Every thread of the two kernels writes only the element of its own global
  index, so the order does not matter.
* A launch whose configuration the device rejects runs no thread.  The launch
  statement returns no status and the programs never read the last error, so the run
  continues.
* Work enqueued on the two streams of `multigpu.cpp` is executed in the order of
  issue.  The streams belong to different devices and own their device buffers.
* `main` of `multigpu.cpp` is embedded twice: `MultiGpu.mainData` is the data computed
  when every runtime call succeeds, `MultiGpu.main` is the sequence of runtime calls,
  error checks and output lines under any pattern of failing calls.
* The two MPI ranks of `mpiexample.cpp` are one state; the blocking sends and receives
  fix the order of the steps of the two ranks.
-/

namespace Hip

/-- Value of an `int` expression: two's complement wrap to 32 bits. -/
def wrapInt32 (x : Int) : Int := (x + 2147483648) % 4294967296 - 2147483648

/-- Value stored in an `unsigned int` (the members of `dim3`, `blockIdx`, ...). -/
def wrapUInt32 (x : Int) : Nat := (x % 4294967296).toNat

/-- Global index of a thread, `blockIdx.x * blockDim.x + threadIdx.x` stored in an `int`
(`idx` in `vector_add`, `tid` in `add_kernel`): an `unsigned int` product and sum,
converted to `int`. -/
def globalIdx (blockIdx blockDim threadIdx : Nat) : Int :=
  wrapInt32 (wrapUInt32 ((blockIdx : Int) * blockDim + threadIdx))

/-- Device properties the launch of a kernel depends on.  `maxThreadsPerBlock` is the
field of that name in `hipDeviceProp_t`; it is not part of the repository and is kept
as a parameter. -/
structure DeviceProps where
  maxThreadsPerBlock : Nat
deriving DecidableEq, Repr

/-- A launch configuration `<<<grid, block>>>` is accepted by the runtime when both
dimensions are positive and the block fits the device. -/
def launchAccepted (dev : DeviceProps) (grid block : Nat) : Bool :=
  decide (0 < grid) && decide (0 < block) && decide (block ≤ dev.maxThreadsPerBlock)

/-- All threads of one block, `threadIdx.x = 0, ..., blockDim.x - 1`. -/
def runBlock {σ : Type} (kernel : Nat → Nat → Nat → σ → Option σ)
    (blockDim blockIdx : Nat) (s : σ) : Option σ :=
  (List.range blockDim).foldlM (fun acc threadIdx => kernel blockIdx blockDim threadIdx acc) s

/-- Kernel launch `kernel<<<grid, block>>>(...)`.  `kernel blockIdx blockDim threadIdx`
is the body run by one thread.  A rejected configuration runs no thread; the launch
statement yields no status, so the caller continues. -/
def launch {σ : Type} (dev : DeviceProps) (kernel : Nat → Nat → Nat → σ → Option σ)
    (grid block : Nat) (s : σ) : Option σ :=
  if launchAccepted dev grid block then
    (List.range grid).foldlM (fun acc blockIdx => runBlock kernel block blockIdx acc) s
  else some s

/-- Copy of `count` elements from `src + srcOff` to `dst + dstOff`
(`hipMemcpy`, `hipMemcpyAsync`). -/
def memcpy {α : Type} (dst : List α) (dstOff : Int) (src : List α) (srcOff : Int)
    (count : Int) : Option (List α) :=
  if 0 ≤ count ∧ 0 ≤ dstOff ∧ 0 ≤ srcOff ∧
      srcOff + count ≤ src.length ∧ dstOff + count ≤ dst.length then
    some (dst.take dstOff.toNat ++ (src.drop srcOff.toNat).take count.toNat
      ++ dst.drop (dstOff.toNat + count.toNat))
  else none

/-- Device allocation of `count` elements (`hipMalloc`); the content is whatever
`junk` the memory holds. -/
def malloc {α : Type} (junk : Nat → α) (count : Int) : List α :=
  (List.range count.toNat).map junk

end Hip

namespace MultiGpu

open Hip

/-- Information of the decomposition (`struct Decomp`). -/
structure Decomp where
  len : Int
  start : Int
deriving DecidableEq, Repr

/-- Constant `const int ThreadsInBlock = 128` of `main`. -/
def ThreadsInBlock : Int := 128

/-- The decomposition, lines 72-75 of `main`: `dec[0]` and `dec[1]`. -/
def dec (N : Int) (i : Nat) : Decomp :=
  let len0 := wrapInt32 (Int.tdiv N 2)
  if i = 0 then { len := len0, start := 0 }
  else { len := wrapInt32 (N - wrapInt32 (Int.tdiv N 2)), start := len0 }

/-- Line 103: `grid.x = (dec[i].len + ThreadsInBlock - 1) / ThreadsInBlock`. -/
def gridX (len : Int) : Nat :=
  wrapUInt32 (Int.tdiv (wrapInt32 (wrapInt32 (len + ThreadsInBlock) - 1)) ThreadsInBlock)

/-- Index of the element one thread of `vector_add` reads in `A` and `B` and writes in
`C`: `some idx` when the bounds check `idx < N` of line 26 passes, `none` when the
thread touches no memory. -/
def vector_add_access (N : Int) (blockIdx blockDim threadIdx : Nat) : Option Int :=
  let idx := globalIdx blockIdx blockDim threadIdx
  if idx < N then some idx else none

/-- Kernel for vector summation, one thread (lines 21-29).  The state is the
buffer `C`; `C[idx] = A[idx] + B[idx]` is undefined outside the buffers. -/
def vector_add {α : Type} (add : α → α → α) (A B : List α) (N : Int)
    (blockIdx blockDim threadIdx : Nat) (C : List α) : Option (List α) :=
  match vector_add_access N blockIdx blockDim threadIdx with
  | none => some C
  | some idx =>
    if 0 ≤ idx ∧ idx < C.length then
      match A[idx.toNat]?, B[idx.toNat]? with
      | some a, some b => some (C.set idx.toNat (add a b))
      | _, _ => none
    else none

/-- Instrumented thread body: records the global index of every launched thread. -/
def traceThread (blockIdx blockDim threadIdx : Nat) (log : List Int) : Option (List Int) :=
  some (log ++ [globalIdx blockIdx blockDim threadIdx])

/-- Memory access made by a thread of `vector_add`: a read of `A[idx]`, a read of
`B[idx]` or a write of `C[idx]`. -/
inductive Access
  | readA (idx : Int)
  | readB (idx : Int)
  | writeC (idx : Int)
deriving DecidableEq, Repr

/-- Kernel for vector summation, one thread (lines 21-29), with every access to `A`,
`B` and `C` recorded.  The state is the buffer `C` and the accesses made so far; a
thread that fails the bounds check of line 26 makes no access. -/
def vector_add_logged {α : Type} (add : α → α → α) (A B : List α) (N : Int)
    (blockIdx blockDim threadIdx : Nat) (s : List α × List Access) :
    Option (List α × List Access) :=
  let idx := globalIdx blockIdx blockDim threadIdx
  if idx < N then
    if 0 ≤ idx ∧ idx < s.1.length then
      match A[idx.toNat]?, B[idx.toNat]? with
      | some a, some b =>
        some (s.1.set idx.toNat (add a b),
          s.2 ++ [Access.readA idx, Access.readB idx, Access.writeC idx])
      | _, _ => none
    else none
  else some s

/-- The three host arrays `hA`, `hB`, `hC`. -/
structure HostBuffers (α : Type) where
  hA : List α
  hB : List α
  hC : List α
deriving DecidableEq, Repr

/-- Device arrays `dA[i]`, `dB[i]`, `dC[i]` of one device. -/
structure DeviceBuffers (α : Type) where
  dA : List α
  dB : List α
  dC : List α
deriving DecidableEq, Repr

/-- Lines 81-83: the three allocations of device `i`. -/
def allocDevice {α : Type} (junk : Nat → Nat → α) (N : Int) (i : Nat) : DeviceBuffers α :=
  { dA := malloc (junk (3 * i)) (dec N i).len
    dB := malloc (junk (3 * i + 1)) (dec N i).len
    dC := malloc (junk (3 * i + 2)) (dec N i).len }

/-- Body of the loop of lines 95-109 for device `i`: copy in, launch, copy out. -/
def deviceStep {α : Type} (dev : DeviceProps) (add : α → α → α) (N : Int) (i : Nat)
    (h : HostBuffers α) (d : DeviceBuffers α) : Option (HostBuffers α × DeviceBuffers α) :=
  match memcpy d.dA 0 h.hA (dec N i).start (dec N i).len with
  | none => none
  | some dA =>
    match memcpy d.dB 0 h.hB (dec N i).start (dec N i).len with
    | none => none
    | some dB =>
      match launch dev (vector_add add dA dB (dec N i).len) (gridX (dec N i).len)
          (wrapUInt32 ThreadsInBlock) d.dC with
      | none => none
      | some dC =>
        match memcpy h.hC (dec N i).start dC 0 (dec N i).len with
        | none => none
        | some hC => some ({ h with hC := hC }, { dA := dA, dB := dB, dC := dC })

/-- The dual-device pipeline of `main`, lines 72-118: decomposition, device
allocations, and the copy-launch-copy sequence of device 0 then device 1. -/
def pipeline {α : Type} (dev : DeviceProps) (add : α → α → α) (junk : Nat → Nat → α)
    (N : Int) (h : HostBuffers α) : Option (HostBuffers α) :=
  match deviceStep dev add N 0 h (allocDevice junk N 0) with
  | none => none
  | some (h0, _) =>
    match deviceStep dev add N 1 h0 (allocDevice junk N 1) with
    | none => none
    | some (h1, _) => some h1

end MultiGpu


/-! ## Arithmetic on `double` and the host loops of `multigpu.cpp` -/

namespace Hip

/-- Interpretation of the `double` operations the programs use.  `lit q` is the value
of the literal written `q` in the source, `ofInt` the conversion `int → double`,
`toInt` the conversion `double → int`. -/
structure DoubleArith (α : Type) where
  add : α → α → α
  sub : α → α → α
  lit : ℚ → α
  ofInt : Int → α
  toInt : α → Int

/-- Exact arithmetic on rationals; `toInt` truncates toward zero.  Binary64 arithmetic
agrees with it whenever the operands and the exact result are representable, which is
the case for the small multiples of `1/2` it is applied to below. -/
def exactArith : DoubleArith ℚ where
  add := fun a b => a + b
  sub := fun a b => a - b
  lit := fun q => q
  ofInt := fun n => (n : ℚ)
  toInt := fun q => Int.tdiv q.num q.den

end Hip

namespace MultiGpu

open Hip

/-- Lines 61-63: the three pinned host allocations of `N` elements each. -/
def allocHost {α : Type} (junk : Nat → Nat → α) (N : Int) : HostBuffers α :=
  { hA := malloc (junk 6) N
    hB := malloc (junk 7) N
    hC := malloc (junk 8) N }

/-- Lines 66-69: `hA[i] = 1.0; hB[i] = 2.0;` for `i = 0, ..., N - 1`. -/
def initHost {α : Type} (D : DoubleArith α) (N : Int) (h : HostBuffers α) :
    Option (HostBuffers α) :=
  (List.range N.toNat).foldlM
    (fun acc i =>
      if i < acc.hA.length ∧ i < acc.hB.length then
        some { acc with hA := acc.hA.set i (D.lit 1), hB := acc.hB.set i (D.lit 2) }
      else none)
    h

/-- Lines 135-139: `int errorsum = 0;` then `errorsum += hC[i] - 3.0` for
`i = 0, ..., N - 1`.  The compound assignment computes
`(double)errorsum + (hC[i] - 3.0)` and converts the result back to `int`. -/
def errorsum {α : Type} (D : DoubleArith α) (N : Int) (hC : List α) : Option Int :=
  (List.range N.toNat).foldlM
    (fun acc i =>
      match hC[i]? with
      | some c => some (D.toInt (D.add (D.ofInt acc) (D.sub c (D.lit 3))))
      | none => none)
    0

/-- The sum over all `i < N` of `C[i] - 3.0`, accumulated in `double`. -/
def errorsumSpec {α : Type} (D : DoubleArith α) (C : List α) : α :=
  C.foldl (fun acc c => D.add acc (D.sub c (D.lit 3))) (D.lit 0)

/-- Data computed by `main`: host allocation, initialisation, the pipeline, and the
error sum that is printed.  Returns the final host buffers and `errorsum`. -/
def mainData {α : Type} (D : DoubleArith α) (dev : DeviceProps) (junk : Nat → Nat → α)
    (N : Int) : Option (HostBuffers α × Int) :=
  match initHost D N (allocHost junk N) with
  | none => none
  | some h =>
    match pipeline dev D.add junk N h with
    | none => none
    | some out =>
      match errorsum D N out.hC with
      | none => none
      | some e => some (out, e)

end MultiGpu

/-! ## Runtime calls, error checks and output -/

namespace Hip

/-- Runtime functions called by the programs. -/
inductive HipCall
  | hipGetDeviceCount
  | hipSetDevice (device : Nat)
  | hipEventCreate
  | hipHostMalloc
  | hipMalloc
  | hipStreamCreate
  | hipEventRecord
  | hipMemcpyAsync
  | hipMemcpy
  | hipStreamSynchronize
  | hipStreamDestroy
  | hipFree
  | hipEventElapsedTime
  | hipHostFree
  | hipDeviceCanAccessPeer
  | hipDeviceEnablePeerAccess
  | hipDeviceDisablePeerAccess
deriving DecidableEq, Repr

/-- Lines written to standard output, by their format string. -/
inductive Output
  /-- Line `Need at least two GPUs!` -/
  | needTwoGpus
  /-- Line `Found %d GPU devices, using GPUs 0 and 1!` -/
  | found (devCount : Int)
  /-- Line `%s in %s at line %d` written by `hip_errchk` -/
  | hipError (line : Nat)
  /-- Line `Error sum = %i` -/
  | errorSum
  /-- Line `Time elapsed: %f` -/
  | timeElapsed
  /-- Line `hipDeviceCanAccessPeer: %d (GPU %d to GPU %d)` -/
  | canAccessPeer (value : Int)
  /-- Line `P2P enabled - Bandwith: ...` -/
  | p2pEnabled
  /-- Line `P2P disabled - Bandwith: ...` -/
  | p2pDisabled
deriving DecidableEq, Repr

/-- Statements of `main` that call the runtime or write output. -/
inductive Stmt
  /-- Runtime call wrapped in `HIP_ERRCHK`, at a source line -/
  | checked (c : HipCall) (line : Nat)
  /-- Runtime call whose returned status is dropped -/
  | unchecked (c : HipCall) (line : Nat)
  /-- Kernel launch `kernel<<<...>>>(...)`; the statement has no status -/
  | kernel (line : Nat)
  /-- Call of `printf` -/
  | print (o : Output)
deriving DecidableEq, Repr

/-- What a run has done to the runtime. -/
inductive Event
  | call (c : HipCall) (line : Nat)
  | kernel (line : Nat)
deriving DecidableEq, Repr

/-- State of a run: the runtime events so far, the number of runtime calls made, the
output, and the exit code once the process has terminated. -/
structure Run where
  events : List Event
  ncalls : Nat
  stdout : List Output
  exit : Option Int
deriving DecidableEq, Repr

/-- Constant `EXIT_FAILURE` of `<cstdlib>`. -/
def EXIT_FAILURE : Int := 1

/-- The state at entry of `main`. -/
def Run.start : Run := { events := [], ncalls := 0, stdout := [], exit := none }

/-- Function `hip_errchk(err, file, line)`: on `err != hipSuccess` print and `exit(EXIT_FAILURE)`. -/
def hip_errchk (failed : Bool) (line : Nat) (r : Run) : Run :=
  if failed then { r with stdout := r.stdout ++ [Output.hipError line], exit := some EXIT_FAILURE }
  else r

/-- One statement.  `fails k` tells whether the runtime call number `k` of the run
(counted from 0 in the order the calls are made) returns a non-success status.  A
terminated process executes nothing. -/
def step (fails : Nat → Bool) (r : Run) (s : Stmt) : Run :=
  match r.exit with
  | some _ => r
  | none =>
    match s with
    | Stmt.checked c line =>
      hip_errchk (fails r.ncalls) line
        { r with events := r.events ++ [Event.call c line], ncalls := r.ncalls + 1 }
    | Stmt.unchecked c line =>
      { r with events := r.events ++ [Event.call c line], ncalls := r.ncalls + 1 }
    | Stmt.kernel line => { r with events := r.events ++ [Event.kernel line] }
    | Stmt.print o => { r with stdout := r.stdout ++ [o] }

/-- A sequence of statements. -/
def exec (fails : Nat → Bool) (stmts : List Stmt) (r : Run) : Run :=
  stmts.foldl (step fails) r

/-- Statement `return 0` of `main`, or falling off its end. -/
def returnZero (r : Run) : Run :=
  match r.exit with
  | some _ => r
  | none => { r with exit := some 0 }

end Hip

namespace MultiGpu

open Hip

/-- The statements of `main` after the device-count test, lines 56-151, loops
unrolled. -/
def mainBody : List Stmt :=
  [ Stmt.checked (HipCall.hipSetDevice 0) 56,
    Stmt.checked HipCall.hipEventCreate 57,
    Stmt.checked HipCall.hipEventCreate 58,
    Stmt.checked HipCall.hipHostMalloc 61,
    Stmt.checked HipCall.hipHostMalloc 62,
    Stmt.checked HipCall.hipHostMalloc 63 ]
  ++ (List.range 2).flatMap (fun i =>
    [ Stmt.unchecked (HipCall.hipSetDevice i) 80,
      Stmt.checked HipCall.hipMalloc 81,
      Stmt.checked HipCall.hipMalloc 82,
      Stmt.checked HipCall.hipMalloc 83,
      Stmt.checked HipCall.hipStreamCreate 84 ])
  ++ [ Stmt.checked (HipCall.hipSetDevice 0) 88,
       Stmt.checked HipCall.hipEventRecord 89 ]
  ++ (List.range 2).flatMap (fun i =>
    [ Stmt.checked (HipCall.hipSetDevice i) 98,
      Stmt.checked HipCall.hipMemcpyAsync 99,
      Stmt.checked HipCall.hipMemcpyAsync 100,
      Stmt.kernel 107,
      Stmt.checked HipCall.hipMemcpyAsync 108 ])
  ++ (List.range 2).flatMap (fun i =>
    [ Stmt.checked (HipCall.hipSetDevice i) 115,
      Stmt.checked HipCall.hipStreamSynchronize 116,
      Stmt.checked HipCall.hipStreamDestroy 117 ])
  ++ [ Stmt.checked (HipCall.hipSetDevice 0) 122,
       Stmt.checked HipCall.hipEventRecord 123 ]
  ++ (List.range 2).flatMap (fun i =>
    [ Stmt.checked (HipCall.hipSetDevice i) 128,
      Stmt.checked HipCall.hipFree 129,
      Stmt.checked HipCall.hipFree 130,
      Stmt.checked HipCall.hipFree 131 ])
  ++ [ Stmt.print Output.errorSum,
       Stmt.checked (HipCall.hipSetDevice 0) 145,
       Stmt.checked HipCall.hipEventElapsedTime 146,
       Stmt.print Output.timeElapsed,
       Stmt.checked HipCall.hipHostFree 149,
       Stmt.checked HipCall.hipHostFree 150,
       Stmt.checked HipCall.hipHostFree 151 ]

/-- Control flow of `main` in `multigpu.cpp`.  `devCount` is the value the variable
holds after `hipGetDeviceCount(&devCount)` at line 46. -/
def main (fails : Nat → Bool) (devCount : Int) : Run :=
  let r := exec fails [Stmt.unchecked HipCall.hipGetDeviceCount 46] Run.start
  if devCount < 2 then
    { r with stdout := r.stdout ++ [Output.needTwoGpus], exit := some EXIT_FAILURE }
  else
    returnZero (exec fails (Stmt.print (Output.found devCount) :: mainBody) r)

/-- The runtime calls of a complete run of `main`, in order: line and whether the call
is wrapped in `HIP_ERRCHK`. -/
def callSites : List (Nat × Bool) :=
  (Stmt.unchecked HipCall.hipGetDeviceCount 46 :: mainBody).filterMap (fun s =>
    match s with
    | Stmt.checked _ line => some (line, true)
    | Stmt.unchecked _ line => some (line, false)
    | _ => none)

end MultiGpu

namespace P2pCopy

open Hip

/-- Statements of `copyP2P(p2p, gpu0, gpu1, dA_0, dA_1, size)` with `gpu0 = 0`,
`gpu1 = 1`, lines 15-55. -/
def copyP2P (p2p : Int) : List Stmt :=
  (if p2p ≠ 0 then
    [ Stmt.checked (HipCall.hipSetDevice 0) 20,
      Stmt.checked HipCall.hipDeviceEnablePeerAccess 21,
      Stmt.checked (HipCall.hipSetDevice 1) 22,
      Stmt.checked HipCall.hipDeviceEnablePeerAccess 23 ]
   else [])
  ++ [ Stmt.checked HipCall.hipMemcpy 27 ]
  ++ (List.range 10).map (fun _ => Stmt.checked HipCall.hipMemcpy 33)
  ++ [ Stmt.checked HipCall.hipStreamSynchronize 35 ]
  ++ (if p2p ≠ 0 then
    [ Stmt.checked (HipCall.hipSetDevice 0) 45,
      Stmt.checked HipCall.hipDeviceDisablePeerAccess 46,
      Stmt.checked (HipCall.hipSetDevice 1) 47,
      Stmt.checked HipCall.hipDeviceDisablePeerAccess 48,
      Stmt.print Output.p2pEnabled ]
   else [ Stmt.print Output.p2pDisabled ])

/-- The statements of `main` after the device-count test, lines 73-96.  `peerAccess01`
and `peerAccess10` are the values `hipDeviceCanAccessPeer` stores. -/
def mainBody (peerAccess01 peerAccess10 : Int) : List Stmt :=
  [ Stmt.checked (HipCall.hipSetDevice 0) 73,
    Stmt.checked HipCall.hipMalloc 74,
    Stmt.checked (HipCall.hipSetDevice 1) 76,
    Stmt.checked HipCall.hipMalloc 77,
    Stmt.checked HipCall.hipDeviceCanAccessPeer 82,
    Stmt.checked HipCall.hipDeviceCanAccessPeer 83,
    Stmt.print (Output.canAccessPeer peerAccess01),
    Stmt.print (Output.canAccessPeer peerAccess10) ]
  ++ (if peerAccess01 ≠ 0 ∧ peerAccess10 ≠ 0 then copyP2P 1 else [])
  ++ copyP2P 0
  ++ [ Stmt.checked HipCall.hipFree 95,
       Stmt.checked HipCall.hipFree 96 ]

/-- Control flow of `main` in `p2pcopy.cpp`. -/
def main (fails : Nat → Bool) (devCount peerAccess01 peerAccess10 : Int) : Run :=
  let r := exec fails [Stmt.checked HipCall.hipGetDeviceCount 62] Run.start
  match r.exit with
  | some _ => r
  | none =>
    if devCount < 2 then
      { r with stdout := r.stdout ++ [Output.needTwoGpus], exit := some EXIT_FAILURE }
    else
      returnZero (exec fails (mainBody peerAccess01 peerAccess10) r)

end P2pCopy

/-! ## The ping-pong routines of `mpiexample.cpp` -/

namespace MpiExample

open Hip

/-- Very simple addition kernel, one thread (lines 9-14): `in[tid]++` when `tid < N`.
`incr` is the addition of one to a `double`. -/
def add_kernel {α : Type} (incr : α → α) (N : Int) (blockIdx blockDim threadIdx : Nat)
    (inp : List α) : Option (List α) :=
  let tid := globalIdx blockIdx blockDim threadIdx
  if tid < N then
    if 0 ≤ tid ∧ tid < inp.length then
      match inp[tid.toNat]? with
      | some x => some (inp.set tid.toNat (incr x))
      | none => none
    else none
  else some inp

/-- Memory of one MPI rank: the host array `hA` and the device array `dA`. -/
structure RankMem (α : Type) where
  hA : List α
  dA : List α
deriving DecidableEq, Repr

/-- The two processes. -/
structure World (α : Type) where
  rank0 : RankMem α
  rank1 : RankMem α
deriving DecidableEq, Repr

/-- A matching pair `MPI_Send(sendBuf, count, MPI_DOUBLE, ...)` on one rank and
`MPI_Recv(recvBuf, count, MPI_DOUBLE, ...)` on the other: the receive buffer gets the
first `count` elements of the send buffer. -/
def sendRecv {α : Type} (recvBuf sendBuf : List α) (count : Int) : Option (List α) :=
  memcpy recvBuf 0 sendBuf 0 count

/-- Lines 52-53: `for (int i = 0; i < N; ++i) data[i] += 1.0;`. -/
def addOneLoop {α : Type} (incr : α → α) (N : Int) (data : List α) : Option (List α) :=
  (List.range N.toNat).foldlM
    (fun acc i =>
      match acc[i]? with
      | some x => some (acc.set i (incr x))
      | none => none)
    data

/-- Lines 86-87 and 115-116: `gridsize = (N + blocksize - 1) / blocksize` with
`blocksize = 128`. -/
def gridsize (N : Int) : Int :=
  Int.tdiv (wrapInt32 (wrapInt32 (N + 128) - 1)) 128

/-- The launch `add_kernel<<<blocksize, gridsize>>> (dA, N)` of lines 88 and 119: the
first launch parameter is the number of blocks, the second the threads per block. -/
def launchAdd {α : Type} (dev : DeviceProps) (incr : α → α) (N : Int) (dA : List α) :
    Option (List α) :=
  launch dev (add_kernel incr N) (wrapUInt32 128) (wrapUInt32 (gridsize N)) dA

/-- Test routine for CPU-to-CPU copy (lines 39-61), both ranks; `data` is `hA`. -/
def CPUtoCPUtest {α : Type} (incr : α → α) (N : Int) (w : World α) : Option (World α) :=
  -- rank 0 line 46, rank 1 line 49
  match sendRecv w.rank1.hA w.rank0.hA N with
  | none => none
  | some data1 =>
    -- rank 1 lines 52-53
    match addOneLoop incr N data1 with
    | none => none
    | some data1 =>
      -- rank 1 line 55, rank 0 line 47
      match sendRecv w.rank0.hA data1 N with
      | none => none
      | some data0 =>
        some { rank0 := { w.rank0 with hA := data0 }, rank1 := { w.rank1 with hA := data1 } }

/-- Test routine for GPU-CPU-to-CPU-GPU copy (lines 65-98), both ranks.  `dev` is the
device of rank 1, the adder process. -/
def GPUtoGPUtestManual {α : Type} (dev : DeviceProps) (incr : α → α) (N : Int)
    (w : World α) : Option (World α) :=
  -- rank 0 line 74: device to host
  match memcpy w.rank0.hA 0 w.rank0.dA 0 N with
  | none => none
  | some hA0 =>
    -- rank 0 line 77, rank 1 line 83
    match sendRecv w.rank1.hA hA0 N with
    | none => none
    | some hA1 =>
      -- rank 1 line 84: host to device
      match memcpy w.rank1.dA 0 hA1 0 N with
      | none => none
      | some dA1 =>
        -- rank 1 lines 86-88
        match launchAdd dev incr N dA1 with
        | none => none
        | some dA1 =>
          -- rank 1 line 89: device to host
          match memcpy hA1 0 dA1 0 N with
          | none => none
          | some hA1 =>
            -- rank 1 line 91, rank 0 line 79
            match sendRecv hA0 hA1 N with
            | none => none
            | some hA0 =>
              -- rank 0 line 80: host to device
              match memcpy w.rank0.dA 0 hA0 0 N with
              | none => none
              | some dA0 =>
                some { rank0 := { hA := hA0, dA := dA0 }, rank1 := { hA := hA1, dA := dA1 } }

/-- Test routine with HIP-aware MPI (lines 102-127), both ranks: the device arrays are
passed to MPI directly. -/
def GPUtoGPUtestHipAware {α : Type} (dev : DeviceProps) (incr : α → α) (N : Int)
    (w : World α) : Option (World α) :=
  -- rank 0 line 110, rank 1 line 118
  match sendRecv w.rank1.dA w.rank0.dA N with
  | none => none
  | some dA1 =>
    -- rank 1 line 119
    match launchAdd dev incr N dA1 with
    | none => none
    | some dA1 =>
      -- rank 1 line 120, rank 0 line 112
      match sendRecv w.rank0.dA dA1 N with
      | none => none
      | some dA0 =>
        some { rank0 := { w.rank0 with dA := dA0 }, rank1 := { w.rank1 with dA := dA1 } }

end MpiExample

/-! ## Auxiliary definitions for the statements and proofs -/

namespace MultiGpu

open Hip

/-- Membership of index `j` in the range `[start, start + len)` of a decomposition. -/
def Decomp.covers (d : Decomp) (j : Int) : Prop := d.start ≤ j ∧ j < d.start + d.len

instance (d : Decomp) (j : Int) : Decidable (d.covers j) := by
  unfold Decomp.covers; infer_instance

/-- Effect of the thread with global index `k` on `C`, stated on natural numbers. -/
def kstep {α : Type} (add : α → α → α) (A B : List α) (N : Int) (k : Nat) (C : List α) :
    Option (List α) :=
  if (k : Int) < N then
    if k < C.length then
      match A[k]?, B[k]? with
      | some a, some b => some (C.set k (add a b))
      | _, _ => none
    else none
  else some C

/-- The accesses of the thread with global index `k` that passes the bounds check. -/
def threadAccesses (k : Nat) : List Access :=
  [Access.readA k, Access.readB k, Access.writeC k]

/-- Effect of the thread with global index `k` on `C` and on the recorded accesses,
stated on natural numbers. -/
def lstep {α : Type} (add : α → α → α) (A B : List α) (N : Int) (k : Nat)
    (s : List α × List Access) : Option (List α × List Access) :=
  if (k : Int) < N then
    if k < s.1.length then
      match A[k]?, B[k]? with
      | some a, some b => some (s.1.set k (add a b), s.2 ++ threadAccesses k)
      | _, _ => none
    else none
  else some s

/-- The part of a host array that belongs to a decomposition entry. -/
def hostSlice {α : Type} (l : List α) (d : Decomp) : List α :=
  (l.drop d.start.toNat).take d.len.toNat

end MultiGpu

namespace Hip

/-- The run `r` with the lines `p` written before its output. -/
def prependOut (p : List Output) (r : Run) : Run := { r with stdout := p ++ r.stdout }

end Hip

namespace MultiGpu

open Hip

/-- State of `main` after line 46. -/
def afterCount : Run :=
  { events := [Event.call HipCall.hipGetDeviceCount 46], ncalls := 1, stdout := [], exit := none }

end MultiGpu

namespace Hip

/-- Source line of the last event of a run, when that event is a runtime call. -/
def lastCallLine (r : Run) : Option Nat :=
  match r.events.getLast? with
  | some (Event.call _ line) => some line
  | _ => none

end Hip

namespace MultiGpu

open Hip

/-- Summary of a run of `main` in which only the runtime call number `k` fails, that
call being wrapped in `HIP_ERRCHK` at `line`: the process exits with `EXIT_FAILURE`
after `k + 1` calls, the last of them at `line`, the last output line is the error
message, and the two report lines are absent when the call precedes them. -/
def fatalAt (r : Run) (k line : Nat) : Prop :=
  r.exit = some EXIT_FAILURE ∧ r.ncalls = k + 1 ∧ lastCallLine r = some line ∧
  r.stdout.getLast? = some (Output.hipError line) ∧
  (line ≤ 131 → Output.errorSum ∉ r.stdout) ∧
  (line ≤ 146 → Output.timeElapsed ∉ r.stdout)

instance (r : Run) (k line : Nat) : Decidable (fatalAt r k line) := by
  unfold fatalAt; infer_instance

end MultiGpu

namespace MpiExample

open Hip

/-- Effect of the thread of `add_kernel` with global index `k`, stated on natural
numbers. -/
def astep {α : Type} (incr : α → α) (N : Int) (k : Nat) (inp : List α) : Option (List α) :=
  if (k : Int) < N then
    if k < inp.length then
      match inp[k]? with
      | some x => some (inp.set k (incr x))
      | none => none
    else none
  else some inp

/-- The state `main` hands to the ping-pong routines: on both ranks `hA` and `dA` hold
`data`. -/
def initialWorld {α : Type} (data : List α) : World α :=
  { rank0 := { hA := data, dA := data }, rank1 := { hA := data, dA := data } }

end MpiExample

/-! ## General facts about launches and copies -/

namespace Hip

theorem wrapInt32_of_range (x : Int) (h0 : -2147483648 ≤ x) (h1 : x < 2147483648) :
    wrapInt32 x = x := by
  unfold wrapInt32; omega

theorem wrapUInt32_of_range (x : Int) (h0 : 0 ≤ x) (h1 : x < 4294967296) :
    (wrapUInt32 x : Int) = x := by
  unfold wrapUInt32; omega

theorem foldlM_range_congr {σ : Type} (f g : σ → Nat → Option σ) (n : Nat)
    (h : ∀ k, k < n → ∀ s, f s k = g s k) (s : σ) :
    (List.range n).foldlM f s = (List.range n).foldlM g s := by
  induction n generalizing s with
  | zero => rfl
  | succ n ih =>
    rw [List.range_succ, List.foldlM_append, List.foldlM_append,
      ih (fun k hk => h k (by omega))]
    cases (List.range n).foldlM g s with
    | none => rfl
    | some s1 => simp [h n (by omega)]

/-- The nested loops over blocks and threads visit the global indices
`0, 1, ..., grid * block - 1` in order. -/
theorem foldBlocks_eq {σ : Type} (kernel : Nat → Nat → Nat → σ → Option σ)
    (step : Nat → σ → Option σ) (block grid : Nat)
    (hk : ∀ b t, b < grid → t < block → ∀ s, kernel b block t s = step (b * block + t) s)
    (s : σ) :
    (List.range grid).foldlM (fun acc b => runBlock kernel block b acc) s
      = (List.range (grid * block)).foldlM (fun acc k => step k acc) s := by
  induction grid generalizing s with
  | zero => simp
  | succ g ih =>
    rw [List.range_succ, List.foldlM_append, Nat.succ_mul, List.range_add,
      List.foldlM_append, ih (fun b t hb ht => hk b t (by omega) ht)]
    simp only [List.foldlM_map]
    cases (List.range (g * block)).foldlM (fun acc k => step k acc) s with
    | none => rfl
    | some s1 =>
      simp only [Option.bind_eq_bind, Option.some_bind, List.foldlM_cons, List.foldlM_nil,
        Option.pure_def, Option.bind_some, runBlock]
      exact foldlM_range_congr _ _ block (fun t ht s2 => hk g t (by omega) ht s2) s1

theorem launch_eq_fold {σ : Type} (dev : DeviceProps)
    (kernel : Nat → Nat → Nat → σ → Option σ) (step : Nat → σ → Option σ) (grid block : Nat)
    (hk : ∀ b t, b < grid → t < block → ∀ s, kernel b block t s = step (b * block + t) s)
    (s : σ) :
    launch dev kernel grid block s
      = if launchAccepted dev grid block then
          (List.range (grid * block)).foldlM (fun acc k => step k acc) s
        else some s := by
  unfold launch
  split
  · exact foldBlocks_eq kernel step block grid hk s
  · rfl

theorem globalIdx_eq (b bd t : Nat) (h : b * bd + t < 2147483648) :
    globalIdx b bd t = ((b * bd + t : Nat) : Int) := by
  unfold globalIdx
  have e : ((b : Int) * bd + t) = ((b * bd + t : Nat) : Int) := by push_cast; rfl
  rw [e, wrapUInt32_of_range _ (by omega) (by omega), wrapInt32_of_range _ (by omega) (by omega)]

theorem set_fill {α : Type} (Z C : List α) (k : Nat) (v : α) (hZ : Z[k]? = some v)
    (hC : k < C.length) :
    (Z.take k ++ C.drop k).set k v = Z.take (k + 1) ++ C.drop (k + 1) := by
  have hk : k < Z.length := by
    by_contra hcon
    rw [List.getElem?_eq_none (by omega)] at hZ
    exact absurd hZ (by simp)
  apply List.ext_getElem?
  intro j
  simp only [List.getElem?_set, List.getElem?_append, List.getElem?_take, List.getElem?_drop,
    List.length_take, List.length_append, List.length_drop]
  rcases Nat.lt_trichotomy j k with h | h | h
  · have h1 : ¬ k = j := by omega
    have h2 : j < min k Z.length := by omega
    have h3 : j < min (k+1) Z.length := by omega
    have h4 : j < k + 1 := by omega
    simp [h1, h2, h3, h4, h]
  · subst h
    have h2 : ¬ j < min j Z.length := by omega
    have h3 : j < min (j+1) Z.length := by omega
    have h5 : j < min j Z.length + (C.length - j) := by omega
    simp [h2, h3, h5, hZ]
  · have h1 : ¬ k = j := by omega
    have h2 : ¬ j < min k Z.length := by omega
    have h3 : ¬ j < min (k+1) Z.length := by omega
    have e1 : min k Z.length = k := by omega
    have e2 : min (k+1) Z.length = k + 1 := by omega
    simp only [h1, h2, h3, if_false, e1, e2]
    have e3 : k + (j - k) = k + 1 + (j - (k + 1)) := by omega
    rw [e3, if_neg (by omega), if_neg (by omega)]

end Hip

namespace MultiGpu

open Hip

theorem dec_zero (N : Int) (h0 : 0 ≤ N) (h1 : N < 2147483648) :
    dec N 0 = { len := N / 2, start := 0 } := by
  have h2 : Int.tdiv N 2 = N / 2 := Int.tdiv_eq_ediv h0 (by omega)
  simp only [dec, if_true, h2]
  rw [wrapInt32_of_range _ (by omega) (by omega)]

theorem dec_one (N : Int) (h0 : 0 ≤ N) (h1 : N < 2147483648) :
    dec N 1 = { len := N - N / 2, start := N / 2 } := by
  have h2 : Int.tdiv N 2 = N / 2 := Int.tdiv_eq_ediv h0 (by omega)
  simp only [dec, h2, if_neg (by decide : ¬ (1 : Nat) = 0)]
  rw [wrapInt32_of_range (N / 2) (by omega) (by omega),
    wrapInt32_of_range _ (by omega) (by omega)]

theorem gridX_eq (len : Int) (h0 : 0 ≤ len) (h1 : len ≤ 2147483647 - 127) :
    (gridX len : Int) = (len + 127) / 128 := by
  have e1 : wrapInt32 (wrapInt32 (len + ThreadsInBlock) - 1) = len + 127 := by
    unfold wrapInt32 ThreadsInBlock; omega
  unfold gridX
  rw [e1]
  have e2 : Int.tdiv (len + 127) ThreadsInBlock = (len + 127) / 128 :=
    Int.tdiv_eq_ediv (by omega) (by decide)
  rw [e2]
  exact wrapUInt32_of_range _ (by omega) (by omega)

theorem fold_trace (f : Nat → List Int) (n : Nat) (log : List Int) :
    (List.range n).foldlM (fun acc k => some (acc ++ f k)) log
      = some (log ++ (List.range n).flatMap f) := by
  induction n with
  | zero => simp
  | succ n ih =>
    rw [List.range_succ, List.foldlM_append, ih]
    simp

theorem flatMap_single (l : List Nat) :
    l.flatMap (fun k => [(k : Int)]) = l.map Int.ofNat := by
  induction l with
  | nil => rfl
  | cons a l ih => simp [List.flatMap_cons, ih]

theorem flatMap_below (N : Int) (n : Nat) (h0 : 0 ≤ N) :
    (List.range n).flatMap (fun k => if (k : Int) < N then [(k : Int)] else [])
      = (List.range (min n N.toNat)).map Int.ofNat := by
  induction n with
  | zero => simp
  | succ n ih =>
    rw [List.range_succ, List.flatMap_append, ih]
    by_cases h : (n : Int) < N
    · have e : min (n + 1) N.toNat = min n N.toNat + 1 := by omega
      have e2 : min n N.toNat = n := by omega
      rw [e, List.range_succ, e2]
      simp [h]
    · have e : min (n + 1) N.toNat = min n N.toNat := by omega
      rw [e]
      simp [h]

end MultiGpu

namespace MultiGpu

open Hip

theorem vector_add_eq_kstep {α : Type} (add : α → α → α) (A B : List α) (N : Int)
    (b bd t : Nat) (h : b * bd + t < 2147483648) (C : List α) :
    vector_add add A B N b bd t C = kstep add A B N (b * bd + t) C := by
  unfold vector_add vector_add_access kstep
  rw [globalIdx_eq b bd t h]
  by_cases hlt : ((b * bd + t : Nat) : Int) < N
  · simp only [hlt, if_true, Int.toNat_ofNat]
    by_cases hc : b * bd + t < C.length
    · have hc2 : (0 : Int) ≤ ((b * bd + t : Nat) : Int)
          ∧ ((b * bd + t : Nat) : Int) < (C.length : Int) := by omega
      rw [if_pos hc2, if_pos hc]
    · have hc2 : ¬ ((0 : Int) ≤ ((b * bd + t : Nat) : Int)
          ∧ ((b * bd + t : Nat) : Int) < (C.length : Int)) := by omega
      rw [if_neg hc2, if_neg hc]
  · simp only [hlt, if_false]

/-- After the threads `0, ..., m - 1` the first `m` elements of `C` hold the sums. -/
theorem kstep_fold {α : Type} (add : α → α → α) (A B C : List α) (N : Int)
    (hA : A.length = N.toNat) (hB : B.length = N.toNat) (hC : C.length = N.toNat)
    (h0 : 0 ≤ N) (m : Nat) :
    (List.range m).foldlM (fun acc k => kstep add A B N k acc) C
      = some ((List.zipWith add A B).take m ++ C.drop m) := by
  induction m with
  | zero => simp
  | succ m ih =>
    rw [List.range_succ, List.foldlM_append, ih]
    simp only [Option.bind_eq_bind, Option.some_bind, List.foldlM_cons, List.foldlM_nil,
      Option.pure_def, Option.bind_some]
    have hZ : (List.zipWith add A B).length = N.toNat := by
      rw [List.length_zipWith, hA, hB, Nat.min_self]
    by_cases hlt : (m : Int) < N
    · have hm : m < N.toNat := by omega
      have hlen : m < ((List.zipWith add A B).take m ++ C.drop m).length := by
        rw [List.length_append, List.length_take, List.length_drop, hZ, hC]; omega
      have ha : A[m]? = some (A[m]) := List.getElem?_eq_getElem (by omega)
      have hb : B[m]? = some (B[m]) := List.getElem?_eq_getElem (by omega)
      have hz : (List.zipWith add A B)[m]? = some (add A[m] B[m]) := by
        rw [List.getElem?_zipWith, ha, hb]
      unfold kstep
      rw [if_pos hlt, if_pos hlen, ha, hb]
      simp only
      rw [set_fill _ _ _ _ hz (by omega)]
    · have hm : N.toNat ≤ m := by omega
      unfold kstep
      rw [if_neg hlt, List.take_of_length_le (by omega : (List.zipWith add A B).length ≤ m),
        List.take_of_length_le (by omega : (List.zipWith add A B).length ≤ m + 1),
        List.drop_of_length_le (by omega : C.length ≤ m),
        List.drop_of_length_le (by omega : C.length ≤ m + 1)]

/-- The launch of line 107 fills `dC` with the element-wise sums. -/
theorem launch_vector_add {α : Type} (dev : DeviceProps) (add : α → α → α)
    (A B C : List α) (len : Int)
    (hdev : 128 ≤ dev.maxThreadsPerBlock)
    (hA : A.length = len.toNat) (hB : B.length = len.toNat) (hC : C.length = len.toNat)
    (h0 : 0 ≤ len) (h1 : len ≤ 2147483647 - 127) :
    launch dev (vector_add add A B len) (gridX len) (wrapUInt32 ThreadsInBlock) C
      = some (List.zipWith add A B) := by
  have hg := gridX_eq len h0 h1
  have hb : wrapUInt32 ThreadsInBlock = 128 := by decide
  rw [hb, launch_eq_fold dev _ (kstep add A B len) (gridX len) 128
    (fun b t hb ht s => vector_add_eq_kstep add A B len b 128 t (by omega) s)]
  have hZ : (List.zipWith add A B).length = len.toNat := by
    rw [List.length_zipWith, hA, hB, Nat.min_self]
  split
  · rw [kstep_fold add A B C len hA hB hC h0,
      List.take_of_length_le (by omega), List.drop_of_length_le (by omega), List.append_nil]
  · rename_i hrej
    have hlen : len = 0 := by
      by_contra hne
      apply hrej
      simp only [launchAccepted, Bool.and_eq_true, decide_eq_true_eq]
      exact ⟨⟨by omega, by omega⟩, hdev⟩
    subst hlen
    have hC0 : C = [] := List.length_eq_zero.mp (by simpa using hC)
    have hA0 : A = [] := List.length_eq_zero.mp (by simpa using hA)
    rw [hC0, hA0]
    rfl

end MultiGpu

namespace Hip

theorem memcpy_in {α : Type} (dst src : List α) (srcOff count : Int)
    (hc : 0 ≤ count) (hs : 0 ≤ srcOff) (hsrc : srcOff + count ≤ src.length)
    (hdst : dst.length = count.toNat) :
    memcpy dst 0 src srcOff count = some ((src.drop srcOff.toNat).take count.toNat) := by
  unfold memcpy
  rw [if_pos ⟨hc, le_refl 0, hs, hsrc, by omega⟩]
  simp only [Int.toNat_zero, List.take_zero, List.nil_append, Nat.zero_add]
  have e : dst.drop count.toNat = [] := List.drop_of_length_le (by omega)
  rw [e, List.append_nil]

theorem memcpy_out {α : Type} (dst src : List α) (dstOff count : Int)
    (hc : 0 ≤ count) (hd : 0 ≤ dstOff) (hdst : dstOff + count ≤ dst.length)
    (hsrc : src.length = count.toNat) :
    memcpy dst dstOff src 0 count
      = some (dst.take dstOff.toNat ++ src ++ dst.drop (dstOff.toNat + count.toNat)) := by
  unfold memcpy
  rw [if_pos ⟨hc, hd, le_refl 0, by omega, hdst⟩]
  simp only [Int.toNat_zero, List.drop_zero]
  have e : src.take count.toNat = src := List.take_of_length_le (by omega)
  rw [e]

theorem length_malloc {α : Type} (junk : Nat → α) (count : Int) :
    (malloc junk count).length = count.toNat := by
  simp [malloc]

end Hip

namespace MultiGpu

open Hip

theorem length_hostSlice {α : Type} (l : List α) (d : Decomp)
    (hs : 0 ≤ d.start) (hl : 0 ≤ d.len) (h : d.start + d.len ≤ l.length) :
    (hostSlice l d).length = d.len.toNat := by
  unfold hostSlice
  rw [List.length_take, List.length_drop]
  omega

/-- One iteration of the copy-launch-copy loop, in closed form. -/
theorem deviceStep_eq {α : Type} (dev : DeviceProps) (add : α → α → α) (N : Int) (i : Nat)
    (h : HostBuffers α) (d : DeviceBuffers α)
    (hdev : 128 ≤ dev.maxThreadsPerBlock)
    (hs : 0 ≤ (dec N i).start) (hl : 0 ≤ (dec N i).len)
    (hl1 : (dec N i).len ≤ 2147483647 - 127)
    (hA : (dec N i).start + (dec N i).len ≤ h.hA.length)
    (hB : (dec N i).start + (dec N i).len ≤ h.hB.length)
    (hC : (dec N i).start + (dec N i).len ≤ h.hC.length)
    (hdA : d.dA.length = (dec N i).len.toNat) (hdB : d.dB.length = (dec N i).len.toNat)
    (hdC : d.dC.length = (dec N i).len.toNat) :
    deviceStep dev add N i h d
      = some ({ hA := h.hA, hB := h.hB,
                hC := h.hC.take (dec N i).start.toNat
                  ++ List.zipWith add (hostSlice h.hA (dec N i)) (hostSlice h.hB (dec N i))
                  ++ h.hC.drop ((dec N i).start.toNat + (dec N i).len.toNat) },
              { dA := hostSlice h.hA (dec N i), dB := hostSlice h.hB (dec N i),
                dC := List.zipWith add (hostSlice h.hA (dec N i))
                  (hostSlice h.hB (dec N i)) }) := by
  have lA := length_hostSlice h.hA (dec N i) hs hl hA
  have lB := length_hostSlice h.hB (dec N i) hs hl hB
  have lZ : (List.zipWith add (hostSlice h.hA (dec N i)) (hostSlice h.hB (dec N i))).length
      = (dec N i).len.toNat := by
    rw [List.length_zipWith, lA, lB, Nat.min_self]
  unfold deviceStep
  rw [memcpy_in d.dA h.hA _ _ hl hs hA hdA, memcpy_in d.dB h.hB _ _ hl hs hB hdB]
  simp only
  have hla := launch_vector_add dev add (hostSlice h.hA (dec N i)) (hostSlice h.hB (dec N i))
    d.dC (dec N i).len hdev lA lB hdC hl hl1
  unfold hostSlice at hla
  rw [hla]
  simp only
  have hlz := lZ
  unfold hostSlice at hlz
  rw [memcpy_out h.hC _ _ _ hl hs hC hlz]
  rfl

/-- The pipeline returns, and the host output is the element-wise sum of the inputs. -/
theorem pipeline_eq {α : Type} (dev : DeviceProps) (add : α → α → α) (junk : Nat → Nat → α)
    (N : Int) (h : HostBuffers α)
    (hdev : 128 ≤ dev.maxThreadsPerBlock) (h0 : 0 ≤ N) (h1 : N < 2147483648)
    (hA : h.hA.length = N.toNat) (hB : h.hB.length = N.toNat) (hC : h.hC.length = N.toNat) :
    pipeline dev add junk N h
      = some { hA := h.hA, hB := h.hB, hC := List.zipWith add h.hA h.hB } := by
  have d0 := dec_zero N h0 h1
  have d1 := dec_one N h0 h1
  unfold pipeline
  rw [deviceStep_eq dev add N 0 h (allocDevice junk N 0) hdev
    (by simp only [d0]; omega) (by simp only [d0]; omega) (by simp only [d0]; omega)
    (by simp only [d0]; omega) (by simp only [d0]; omega) (by simp only [d0]; omega)
    (length_malloc _ _) (length_malloc _ _) (length_malloc _ _)]
  simp only
  rw [deviceStep_eq dev add N 1 _ (allocDevice junk N 1) hdev
    (by simp only [d1]; omega) (by simp only [d1]; omega) (by simp only [d1]; omega)
    (by simp only [d1]; omega) (by simp only [d1]; omega)
    (by rw [d1, d0]; simp [hostSlice, List.length_zipWith]; omega)
    (length_malloc _ _) (length_malloc _ _) (length_malloc _ _)]
  simp only [d0, d1, hostSlice, Int.toNat_zero, List.drop_zero, List.take_zero, List.nil_append,
    Nat.zero_add, Option.some.injEq, HostBuffers.mk.injEq, true_and]
  have lz : (List.zipWith add (List.take (N / 2).toNat h.hA)
      (List.take (N / 2).toNat h.hB)).length = (N / 2).toNat := by
    rw [List.length_zipWith, List.length_take, List.length_take]; omega
  have e1 : List.take (N - N / 2).toNat (List.drop (N / 2).toNat h.hA)
      = List.drop (N / 2).toNat h.hA :=
    List.take_of_length_le (by rw [List.length_drop]; omega)
  have e2 : List.take (N - N / 2).toNat (List.drop (N / 2).toNat h.hB)
      = List.drop (N / 2).toNat h.hB :=
    List.take_of_length_le (by rw [List.length_drop]; omega)
  have e3 : List.drop ((N / 2).toNat + (N - N / 2).toNat)
      (List.zipWith add (List.take (N / 2).toNat h.hA) (List.take (N / 2).toNat h.hB)
        ++ List.drop (N / 2).toNat h.hC) = [] :=
    List.drop_of_length_le (by rw [List.length_append, lz, List.length_drop]; omega)
  rw [List.take_left' lz, e1, e2, e3, List.append_nil, ← List.take_zipWith,
    ← List.drop_zipWith, List.take_append_drop]

end MultiGpu

/-! ## Host loops -/

namespace MultiGpu

open Hip

theorem initHost_fold {α : Type} (D : DoubleArith α) (h : HostBuffers α) (m : Nat)
    (hA : m ≤ h.hA.length) (hB : m ≤ h.hB.length) :
    (List.range m).foldlM
      (fun acc i =>
        if i < acc.hA.length ∧ i < acc.hB.length then
          some { acc with hA := acc.hA.set i (D.lit 1), hB := acc.hB.set i (D.lit 2) }
        else none)
      h
      = some { hA := (List.replicate h.hA.length (D.lit 1)).take m ++ h.hA.drop m,
               hB := (List.replicate h.hB.length (D.lit 2)).take m ++ h.hB.drop m,
               hC := h.hC } := by
  induction m with
  | zero => simp
  | succ m ih =>
    rw [List.range_succ, List.foldlM_append, ih (by omega) (by omega)]
    simp only [Option.bind_eq_bind, Option.some_bind, List.foldlM_cons, List.foldlM_nil,
      Option.pure_def, Option.bind_some]
    have l1 : m < ((List.replicate h.hA.length (D.lit 1)).take m ++ h.hA.drop m).length := by
      rw [List.length_append, List.length_take, List.length_drop, List.length_replicate]; omega
    have l2 : m < ((List.replicate h.hB.length (D.lit 2)).take m ++ h.hB.drop m).length := by
      rw [List.length_append, List.length_take, List.length_drop, List.length_replicate]; omega
    rw [if_pos ⟨l1, l2⟩]
    have z1 : (List.replicate h.hA.length (D.lit 1))[m]? = some (D.lit 1) := by
      rw [List.getElem?_replicate, if_pos (by omega)]
    have z2 : (List.replicate h.hB.length (D.lit 2))[m]? = some (D.lit 2) := by
      rw [List.getElem?_replicate, if_pos (by omega)]
    rw [set_fill _ _ _ _ z1 (by omega), set_fill _ _ _ _ z2 (by omega)]

/-- The initialisation loop fills `hA` with `1.0` and `hB` with `2.0`. -/
theorem initHost_eq {α : Type} (D : DoubleArith α) (N : Int) (h : HostBuffers α)
    (hA : h.hA.length = N.toNat) (hB : h.hB.length = N.toNat) :
    initHost D N h
      = some { hA := List.replicate N.toNat (D.lit 1), hB := List.replicate N.toNat (D.lit 2),
               hC := h.hC } := by
  unfold initHost
  rw [initHost_fold D h N.toNat (by omega) (by omega), hA, hB,
    List.take_of_length_le (by simp), List.take_of_length_le (by simp),
    List.drop_of_length_le (by omega), List.drop_of_length_le (by omega)]
  simp

theorem errorsum_fold_replicate {α : Type} (D : DoubleArith α) (n m : Nat) (c : α)
    (hz : D.toInt (D.add (D.ofInt 0) (D.sub c (D.lit 3))) = 0) (hm : m ≤ n) :
    (List.range m).foldlM
      (fun acc i =>
        match (List.replicate n c)[i]? with
        | some x => some (D.toInt (D.add (D.ofInt acc) (D.sub x (D.lit 3))))
        | none => none)
      (0 : Int)
      = some 0 := by
  induction m with
  | zero => rfl
  | succ m ih =>
    rw [List.range_succ, List.foldlM_append, ih (by omega)]
    simp only [Option.bind_eq_bind, Option.some_bind, List.foldlM_cons, List.foldlM_nil,
      Option.pure_def, Option.bind_some]
    rw [List.getElem?_replicate, if_pos (by omega)]
    simp only [hz]

/-- On an output whose elements all have error zero the error sum is zero. -/
theorem errorsum_replicate {α : Type} (D : DoubleArith α) (N : Int) (c : α)
    (hz : D.toInt (D.add (D.ofInt 0) (D.sub c (D.lit 3))) = 0) :
    errorsum D N (List.replicate N.toNat c) = some 0 :=
  errorsum_fold_replicate D N.toNat N.toNat c hz (le_refl _)

theorem zipWith_replicate {α : Type} (f : α → α → α) (n : Nat) (a b : α) :
    List.zipWith f (List.replicate n a) (List.replicate n b) = List.replicate n (f a b) := by
  induction n with
  | zero => rfl
  | succ n ih => simp [List.replicate_succ, ih]

/-- Element `j` of a buffer into which `Z` was copied at offset `s`. -/
theorem getElem?_splice {α : Type} (C Z : List α) (s j : Nat) (hs : s + Z.length ≤ C.length) :
    (C.take s ++ Z ++ C.drop (s + Z.length))[j]?
      = if j < s then C[j]? else if j < s + Z.length then Z[j - s]? else C[j]? := by
  have lt : (C.take s).length = s := by rw [List.length_take]; omega
  rw [List.append_assoc, List.getElem?_append, lt]
  by_cases h1 : j < s
  · rw [if_pos h1, if_pos h1, List.getElem?_take, if_pos h1]
  · rw [if_neg h1, if_neg h1, List.getElem?_append]
    by_cases h2 : j < s + Z.length
    · rw [if_pos (by omega), if_pos h2]
    · rw [if_neg (by omega), if_neg h2, List.getElem?_drop]
      congr 1
      omega

end MultiGpu

namespace MultiGpu

open Hip

/-- One iteration of the copy-launch-copy loop keeps `hA` and `hB`, and replaces in `hC`
exactly the range of its decomposition entry by the content of `dC`. -/
theorem deviceStep_frame {α : Type} (dev : DeviceProps) (add : α → α → α) (N : Int) (i : Nat)
    (h : HostBuffers α) (d : DeviceBuffers α)
    (hdev : 128 ≤ dev.maxThreadsPerBlock)
    (hs : 0 ≤ (dec N i).start) (hl : 0 ≤ (dec N i).len)
    (hl1 : (dec N i).len ≤ 2147483647 - 127)
    (hA : (dec N i).start + (dec N i).len ≤ h.hA.length)
    (hB : (dec N i).start + (dec N i).len ≤ h.hB.length)
    (hC : (dec N i).start + (dec N i).len ≤ h.hC.length)
    (hdA : d.dA.length = (dec N i).len.toNat) (hdB : d.dB.length = (dec N i).len.toNat)
    (hdC : d.dC.length = (dec N i).len.toNat) :
    ∃ h2 d2, deviceStep dev add N i h d = some (h2, d2) ∧
      h2.hA = h.hA ∧ h2.hB = h.hB ∧ h2.hC.length = h.hC.length ∧
      (∀ j : Nat, ¬ (dec N i).covers j → h2.hC[j]? = h.hC[j]?) ∧
      (∀ j : Nat, (dec N i).covers j → h2.hC[j]? = d2.dC[j - (dec N i).start.toNat]?) := by
  have lA := length_hostSlice h.hA (dec N i) hs hl hA
  have lB := length_hostSlice h.hB (dec N i) hs hl hB
  have lZ : (List.zipWith add (hostSlice h.hA (dec N i)) (hostSlice h.hB (dec N i))).length
      = (dec N i).len.toNat := by
    rw [List.length_zipWith, lA, lB, Nat.min_self]
  refine ⟨_, _, deviceStep_eq dev add N i h d hdev hs hl hl1 hA hB hC hdA hdB hdC,
    rfl, rfl, ?_, ?_, ?_⟩
  · simp only [List.length_append, List.length_take, List.length_drop, lZ]
    omega
  · intro j hj
    simp only [Decomp.covers] at hj
    rw [← lZ, getElem?_splice _ _ _ _ (by rw [lZ]; omega)]
    by_cases h1 : j < (dec N i).start.toNat
    · rw [if_pos h1]
    · rw [if_neg h1, if_neg (by rw [lZ]; omega)]
  · intro j hj
    simp only [Decomp.covers] at hj
    rw [← lZ, getElem?_splice _ _ _ _ (by rw [lZ]; omega)]
    rw [if_neg (by omega), if_pos (by rw [lZ]; omega)]

end MultiGpu

/-! ## Control flow -/

namespace Hip

theorem step_prependOut (fails : Nat → Bool) (p : List Output) (r : Run) (s : Stmt) :
    step fails (prependOut p r) s = prependOut p (step fails r s) := by
  cases r with
  | mk events ncalls stdout exit =>
    cases exit with
    | some e => rfl
    | none =>
      cases s with
      | checked c line =>
        simp only [step, prependOut, hip_errchk]
        cases fails ncalls <;> simp
      | unchecked c line => rfl
      | kernel line => rfl
      | print o => simp [step, prependOut]

theorem exec_prependOut (fails : Nat → Bool) (p : List Output) (stmts : List Stmt) (r : Run) :
    exec fails stmts (prependOut p r) = prependOut p (exec fails stmts r) := by
  induction stmts generalizing r with
  | nil => rfl
  | cons s rest ih =>
    simp only [exec, List.foldl_cons] at ih ⊢
    rw [step_prependOut, ih]

theorem returnZero_prependOut (p : List Output) (r : Run) :
    returnZero (prependOut p r) = prependOut p (returnZero r) := by
  cases r with
  | mk events ncalls stdout exit =>
    cases exit <;> rfl

/-- A statement list without the line `Need at least two GPUs!` does not write it. -/
theorem exec_no_needTwoGpus (fails : Nat → Bool) (stmts : List Stmt) (r : Run)
    (hs : Stmt.print Output.needTwoGpus ∉ stmts) (hr : Output.needTwoGpus ∉ r.stdout) :
    Output.needTwoGpus ∉ (exec fails stmts r).stdout := by
  induction stmts generalizing r with
  | nil => exact hr
  | cons s rest ih =>
    simp only [exec, List.foldl_cons] at ih ⊢
    apply ih _ (fun hmem => hs (List.mem_cons_of_mem _ hmem))
    cases r with
    | mk events ncalls stdout exit =>
      cases exit with
      | some e => exact hr
      | none =>
        cases s with
        | checked c line =>
          simp only [step, hip_errchk]
          cases fails ncalls <;> simpa using hr
        | unchecked c line => exact hr
        | kernel line => exact hr
        | print o =>
          simp only [step, List.mem_append, List.mem_singleton, not_or]
          refine ⟨hr, ?_⟩
          intro ho
          apply hs
          rw [← ho]
          exact List.mem_cons_self _ _

theorem stdout_returnZero (r : Run) : (returnZero r).stdout = r.stdout := by
  cases r with
  | mk events ncalls stdout exit => cases exit <;> rfl

end Hip

namespace MultiGpu

open Hip

/-- With two devices or more, `main` writes the line `Found ...` and runs its body. -/
theorem main_of_two (fails : Nat → Bool) (devCount : Int) (hd : 2 ≤ devCount) :
    main fails devCount
      = prependOut [Output.found devCount] (returnZero (exec fails mainBody afterCount)) := by
  unfold main
  rw [if_neg (by omega), ← returnZero_prependOut, ← exec_prependOut]
  rfl

end MultiGpu

namespace MultiGpu

open Hip

theorem length_callSites : callSites.length = 48 := by decide

set_option maxRecDepth 100000 in
/-- Every call wrapped in `HIP_ERRCHK` is fatal when it alone fails (body of `main`). -/
theorem body_checked_failure :
    ∀ k, k < 48 → ∀ p ∈ callSites[k]?, p.2 = true →
      fatalAt (returnZero (exec (fun j => decide (j = k)) mainBody afterCount)) k p.1 := by
  decide

theorem index_callSites (k line : Nat) (b : Bool) (h : callSites[k]? = some (line, b)) :
    k < 48 := by
  by_contra hcon
  rw [List.getElem?_eq_none (by rw [length_callSites]; omega)] at h
  exact absurd h (by simp)

theorem fatalAt_prependOut (r : Run) (k line : Nat) (o : Output)
    (ho1 : o ≠ Output.errorSum) (ho2 : o ≠ Output.timeElapsed) (h : fatalAt r k line) :
    fatalAt (prependOut [o] r) k line := by
  obtain ⟨h1, h2, h3, h4, h5, h6⟩ := h
  refine ⟨h1, h2, h3, ?_, ?_, ?_⟩
  · cases r with
    | mk events ncalls stdout exit =>
      cases stdout with
      | nil => exact absurd h4 (by simp)
      | cons a l => simpa [prependOut, List.getLast?_cons_cons] using h4
  · intro hl
    simp only [prependOut, List.singleton_append, List.mem_cons, not_or]
    exact ⟨fun e => ho1 e.symm, h5 hl⟩
  · intro hl
    simp only [prependOut, List.singleton_append, List.mem_cons, not_or]
    exact ⟨fun e => ho2 e.symm, h6 hl⟩

end MultiGpu

namespace P2pCopy

open Hip

theorem count_succeeds (fails : Nat → Bool) (hf : fails 0 = false) :
    exec fails [Stmt.checked HipCall.hipGetDeviceCount 62] Run.start
      = { events := [Event.call HipCall.hipGetDeviceCount 62], ncalls := 1, stdout := [],
          exit := none } := by
  simp [exec, step, hip_errchk, Run.start, hf]

theorem count_fails (fails : Nat → Bool) (hf : fails 0 = true) :
    exec fails [Stmt.checked HipCall.hipGetDeviceCount 62] Run.start
      = { events := [Event.call HipCall.hipGetDeviceCount 62], ncalls := 1,
          stdout := [Output.hipError 62], exit := some EXIT_FAILURE } := by
  simp [exec, step, hip_errchk, Run.start, hf]

end P2pCopy

/-! ## The ping-pong routines -/

namespace MpiExample

open Hip

theorem memcpy_full {α : Type} (dst src : List α) (N : Int) (h0 : 0 ≤ N)
    (hd : dst.length = N.toNat) (hs : src.length = N.toNat) :
    memcpy dst 0 src 0 N = some src := by
  rw [memcpy_in dst src 0 N h0 (le_refl 0) (by omega) hd]
  simp only [Int.toNat_zero, List.drop_zero]
  rw [List.take_of_length_le (by omega)]

theorem sendRecv_full {α : Type} (recvBuf sendBuf : List α) (N : Int) (h0 : 0 ≤ N)
    (hd : recvBuf.length = N.toNat) (hs : sendBuf.length = N.toNat) :
    sendRecv recvBuf sendBuf N = some sendBuf :=
  memcpy_full recvBuf sendBuf N h0 hd hs

theorem addOneLoop_fold {α : Type} (incr : α → α) (data : List α) (m : Nat)
    (hm : m ≤ data.length) :
    (List.range m).foldlM
      (fun acc i =>
        match acc[i]? with
        | some x => some (acc.set i (incr x))
        | none => none)
      data
      = some ((data.map incr).take m ++ data.drop m) := by
  induction m with
  | zero => simp
  | succ m ih =>
    rw [List.range_succ, List.foldlM_append, ih (by omega)]
    simp only [Option.bind_eq_bind, Option.some_bind, List.foldlM_cons, List.foldlM_nil,
      Option.pure_def, Option.bind_some]
    have hcur : ((data.map incr).take m ++ data.drop m)[m]? = some (data[m]) := by
      rw [List.getElem?_append, List.length_take, List.length_map,
        if_neg (by omega), List.getElem?_drop]
      have e : m + (m - min m data.length) = m := by omega
      rw [e, List.getElem?_eq_getElem (by omega)]
    rw [hcur]
    simp only
    have hz : (data.map incr)[m]? = some (incr data[m]) := by
      rw [List.getElem?_map, List.getElem?_eq_getElem (by omega)]
      rfl
    rw [set_fill _ _ _ _ hz (by omega)]

/-- The CPU loop adds one to every element. -/
theorem addOneLoop_eq {α : Type} (incr : α → α) (N : Int) (data : List α)
    (hd : data.length = N.toNat) :
    addOneLoop incr N data = some (data.map incr) := by
  unfold addOneLoop
  rw [addOneLoop_fold incr data N.toNat (by omega),
    List.take_of_length_le (by simp; omega), List.drop_of_length_le (by omega),
    List.append_nil]

theorem gridsize_eq (N : Int) (h0 : 0 ≤ N) (h1 : N ≤ 2147483647 - 127) :
    gridsize N = (N + 127) / 128 := by
  have e1 : wrapInt32 (wrapInt32 (N + 128) - 1) = N + 127 := by
    unfold wrapInt32; omega
  unfold gridsize
  rw [e1]
  exact Int.tdiv_eq_ediv (by omega) (by decide)

theorem add_kernel_eq_astep {α : Type} (incr : α → α) (N : Int) (b bd t : Nat)
    (h : b * bd + t < 2147483648) (inp : List α) :
    add_kernel incr N b bd t inp = astep incr N (b * bd + t) inp := by
  unfold add_kernel astep
  rw [globalIdx_eq b bd t h]
  by_cases hlt : ((b * bd + t : Nat) : Int) < N
  · simp only [hlt, if_true, Int.toNat_ofNat]
    by_cases hc : b * bd + t < inp.length
    · have hc2 : (0 : Int) ≤ ((b * bd + t : Nat) : Int)
          ∧ ((b * bd + t : Nat) : Int) < (inp.length : Int) := by omega
      rw [if_pos hc2, if_pos hc]
    · have hc2 : ¬ ((0 : Int) ≤ ((b * bd + t : Nat) : Int)
          ∧ ((b * bd + t : Nat) : Int) < (inp.length : Int)) := by omega
      rw [if_neg hc2, if_neg hc]
  · simp only [hlt, if_false]

theorem astep_fold {α : Type} (incr : α → α) (N : Int) (data : List α)
    (hd : data.length = N.toNat) (m : Nat) :
    (List.range m).foldlM (fun acc k => astep incr N k acc) data
      = some ((data.map incr).take m ++ data.drop m) := by
  induction m with
  | zero => simp
  | succ m ih =>
    rw [List.range_succ, List.foldlM_append, ih]
    simp only [Option.bind_eq_bind, Option.some_bind, List.foldlM_cons, List.foldlM_nil,
      Option.pure_def, Option.bind_some]
    by_cases hlt : (m : Int) < N
    · have hm : m < data.length := by omega
      have hcur : ((data.map incr).take m ++ data.drop m)[m]? = some (data[m]) := by
        rw [List.getElem?_append, List.length_take, List.length_map,
          if_neg (by omega), List.getElem?_drop]
        have e : m + (m - min m data.length) = m := by omega
        rw [e, List.getElem?_eq_getElem (by omega)]
      have hlen : m < ((data.map incr).take m ++ data.drop m).length := by
        rw [List.length_append, List.length_take, List.length_drop, List.length_map]; omega
      have hz : (data.map incr)[m]? = some (incr data[m]) := by
        rw [List.getElem?_map, List.getElem?_eq_getElem (by omega)]
        rfl
      unfold astep
      rw [if_pos hlt, if_pos hlen, hcur]
      simp only
      rw [set_fill _ _ _ _ hz (by omega)]
    · unfold astep
      rw [if_neg hlt,
        List.take_of_length_le (by simp; omega : (data.map incr).length ≤ m),
        List.take_of_length_le (by simp; omega : (data.map incr).length ≤ m + 1),
        List.drop_of_length_le (by omega : data.length ≤ m),
        List.drop_of_length_le (by omega : data.length ≤ m + 1)]

/-- A launch whose block size `gridsize` exceeds the limit of the device runs no
thread. -/
theorem launchAdd_rejected {α : Type} (dev : DeviceProps) (incr : α → α) (N : Int)
    (dA : List α) (h0 : 0 ≤ N) (h1 : N ≤ 2147483647 - 127)
    (hbig : 128 * (dev.maxThreadsPerBlock : Int) < N) :
    launchAdd dev incr N dA = some dA := by
  have hg := gridsize_eq N h0 h1
  have hw := wrapUInt32_of_range (gridsize N) (by omega) (by omega)
  unfold launchAdd launch
  have hrej : launchAccepted dev (wrapUInt32 128) (wrapUInt32 (gridsize N)) = false := by
    simp only [launchAccepted, Bool.and_eq_false_iff, decide_eq_false_iff_not]
    right
    omega
  rw [hrej]
  rfl

/-- An accepted launch adds one to every element. -/
theorem launchAdd_accepted {α : Type} (dev : DeviceProps) (incr : α → α) (N : Int)
    (dA : List α) (h0 : 0 ≤ N) (h1 : N ≤ 2147483647 - 127)
    (hfit : N ≤ 128 * (dev.maxThreadsPerBlock : Int)) (hd : dA.length = N.toNat) :
    launchAdd dev incr N dA = some (dA.map incr) := by
  have hg := gridsize_eq N h0 h1
  have hw := wrapUInt32_of_range (gridsize N) (by omega) (by omega)
  have hb : wrapUInt32 128 = 128 := by decide
  unfold launchAdd
  rw [hb, launch_eq_fold dev _ (astep incr N) 128 (wrapUInt32 (gridsize N))
    (fun b t hb1 ht s => add_kernel_eq_astep incr N b _ t (by
      have hmul : b * wrapUInt32 (gridsize N) ≤ 127 * wrapUInt32 (gridsize N) :=
        Nat.mul_le_mul_right _ (by omega)
      omega) s)]
  split
  · rw [astep_fold incr N dA hd,
      List.take_of_length_le (by simp; omega), List.drop_of_length_le (by omega),
      List.append_nil]
  · rename_i hrej
    have hN : N = 0 := by
      by_contra hne
      apply hrej
      simp only [launchAccepted, Bool.and_eq_true, decide_eq_true_eq]
      exact ⟨⟨by omega, by omega⟩, by omega⟩
    subst hN
    have e : dA = [] := List.length_eq_zero.mp (by simpa using hd)
    rw [e]
    rfl

end MpiExample

namespace MpiExample

open Hip

/-- Closed form of `CPUtoCPUtest`: both host arrays end with the incremented data of
rank 0. -/
theorem CPUtoCPUtest_eq {α : Type} (incr : α → α) (N : Int) (w : World α) (h0 : 0 ≤ N)
    (l0 : w.rank0.hA.length = N.toNat) (l1 : w.rank1.hA.length = N.toNat) :
    CPUtoCPUtest incr N w
      = some { rank0 := { hA := w.rank0.hA.map incr, dA := w.rank0.dA },
               rank1 := { hA := w.rank0.hA.map incr, dA := w.rank1.dA } } := by
  unfold CPUtoCPUtest
  rw [sendRecv_full _ _ N h0 l1 l0]
  simp only
  rw [addOneLoop_eq incr N _ l0]
  simp only
  rw [sendRecv_full _ _ N h0 l0 (by simp [l0])]

/-- Closed form of `GPUtoGPUtestManual` in terms of what the launch leaves in `dA` of
rank 1. -/
theorem GPUtoGPUtestManual_of_launch {α : Type} (dev : DeviceProps) (incr : α → α) (N : Int)
    (w : World α) (X : List α) (h0 : 0 ≤ N)
    (l0h : w.rank0.hA.length = N.toNat) (l0d : w.rank0.dA.length = N.toNat)
    (l1h : w.rank1.hA.length = N.toNat) (l1d : w.rank1.dA.length = N.toNat)
    (hl : launchAdd dev incr N w.rank0.dA = some X) (hX : X.length = N.toNat) :
    GPUtoGPUtestManual dev incr N w
      = some { rank0 := { hA := X, dA := X }, rank1 := { hA := X, dA := X } } := by
  unfold GPUtoGPUtestManual
  rw [memcpy_full _ _ N h0 l0h l0d]
  simp only
  rw [sendRecv_full _ _ N h0 l1h l0d]
  simp only
  rw [memcpy_full _ _ N h0 l1d l0d]
  simp only
  rw [hl]
  simp only
  rw [memcpy_full _ _ N h0 l0d hX]
  simp only
  rw [sendRecv_full _ _ N h0 l0d hX]
  simp only
  rw [memcpy_full _ _ N h0 l0d hX]

/-- Closed form of `GPUtoGPUtestHipAware` in terms of what the launch leaves in `dA` of
rank 1. -/
theorem GPUtoGPUtestHipAware_of_launch {α : Type} (dev : DeviceProps) (incr : α → α)
    (N : Int) (w : World α) (X : List α) (h0 : 0 ≤ N)
    (l0d : w.rank0.dA.length = N.toNat) (l1d : w.rank1.dA.length = N.toNat)
    (hl : launchAdd dev incr N w.rank0.dA = some X) (hX : X.length = N.toNat) :
    GPUtoGPUtestHipAware dev incr N w
      = some { rank0 := { hA := w.rank0.hA, dA := X }, rank1 := { hA := w.rank1.hA, dA := X } } := by
  unfold GPUtoGPUtestHipAware
  rw [sendRecv_full _ _ N h0 l1d l0d]
  simp only
  rw [hl]
  simp only
  rw [sendRecv_full _ _ N h0 l0d hX]

/-- When the vector fits the launch, `N ≤ 128 * maxThreadsPerBlock`, both GPU routines
leave in `dA` of rank 0 what `CPUtoCPUtest` leaves in `hA` of rank 0: the data plus
one. -/
theorem pingpong_adds_one_of_fit {α : Type} (dev : DeviceProps) (incr : α → α) (N : Int)
    (data : List α) (h0 : 0 ≤ N) (h1 : N ≤ 2147483647 - 127)
    (hfit : N ≤ 128 * (dev.maxThreadsPerBlock : Int)) (hd : data.length = N.toNat) :
    (CPUtoCPUtest incr N (initialWorld data)).map (fun w => w.rank0.hA)
      = some (data.map incr) ∧
    (GPUtoGPUtestManual dev incr N (initialWorld data)).map (fun w => w.rank0.dA)
      = some (data.map incr) ∧
    (GPUtoGPUtestHipAware dev incr N (initialWorld data)).map (fun w => w.rank0.dA)
      = some (data.map incr) := by
  have hl := launchAdd_accepted dev incr N data h0 h1 hfit hd
  have hX : (data.map incr).length = N.toNat := by simp [hd]
  refine ⟨?_, ?_, ?_⟩
  · rw [CPUtoCPUtest_eq incr N (initialWorld data) h0 hd hd]
    rfl
  · rw [GPUtoGPUtestManual_of_launch dev incr N (initialWorld data) _ h0 hd hd hd hd hl hX]
    rfl
  · rw [GPUtoGPUtestHipAware_of_launch dev incr N (initialWorld data) _ h0 hd hd hl hX]
    rfl

/-- When the vector does not fit, `N > 128 * maxThreadsPerBlock`, the launch is rejected
and both GPU routines leave `dA` of rank 0 as it was. -/
theorem pingpong_unchanged_of_large {α : Type} (dev : DeviceProps) (incr : α → α) (N : Int)
    (data : List α) (h0 : 0 ≤ N) (h1 : N ≤ 2147483647 - 127)
    (hbig : 128 * (dev.maxThreadsPerBlock : Int) < N) (hd : data.length = N.toNat) :
    (CPUtoCPUtest incr N (initialWorld data)).map (fun w => w.rank0.hA)
      = some (data.map incr) ∧
    (GPUtoGPUtestManual dev incr N (initialWorld data)).map (fun w => w.rank0.dA)
      = some data ∧
    (GPUtoGPUtestHipAware dev incr N (initialWorld data)).map (fun w => w.rank0.dA)
      = some data := by
  have hl := launchAdd_rejected dev incr N data h0 h1 hbig
  refine ⟨?_, ?_, ?_⟩
  · rw [CPUtoCPUtest_eq incr N (initialWorld data) h0 hd hd]
    rfl
  · rw [GPUtoGPUtestManual_of_launch dev incr N (initialWorld data) _ h0 hd hd hd hd hl hd]
    rfl
  · rw [GPUtoGPUtestHipAware_of_launch dev incr N (initialWorld data) _ h0 hd hd hl hd]
    rfl

end MpiExample

/-! ## The accesses of `vector_add` -/

namespace Hip

/-- A fold on a state with a log projects to the fold on the state alone. -/
theorem foldlM_fst {σ τ : Type} (f : σ → Nat → Option σ) (g : σ × τ → Nat → Option (σ × τ))
    (h : ∀ s k, (g s k).map Prod.fst = f s.1 k) (l : List Nat) (s : σ × τ) :
    (l.foldlM g s).map Prod.fst = l.foldlM f s.1 := by
  induction l generalizing s with
  | nil => rfl
  | cons a l ih =>
    rw [List.foldlM_cons, List.foldlM_cons, ← h s a]
    cases hg : g s a with
    | none => rfl
    | some s2 =>
      simp only [Option.bind_eq_bind, Option.some_bind, Option.map_some']
      exact ih s2

end Hip

namespace MultiGpu

open Hip

theorem vector_add_logged_eq_lstep {α : Type} (add : α → α → α) (A B : List α) (N : Int)
    (b bd t : Nat) (h : b * bd + t < 2147483648) (s : List α × List Access) :
    vector_add_logged add A B N b bd t s = lstep add A B N (b * bd + t) s := by
  unfold vector_add_logged lstep threadAccesses
  rw [globalIdx_eq b bd t h]
  by_cases hlt : ((b * bd + t : Nat) : Int) < N
  · simp only [hlt, if_true, Int.toNat_ofNat]
    by_cases hc : b * bd + t < s.1.length
    · have hc2 : (0 : Int) ≤ ((b * bd + t : Nat) : Int)
          ∧ ((b * bd + t : Nat) : Int) < (s.1.length : Int) := by omega
      rw [if_pos hc2, if_pos hc]
    · have hc2 : ¬ ((0 : Int) ≤ ((b * bd + t : Nat) : Int)
          ∧ ((b * bd + t : Nat) : Int) < (s.1.length : Int)) := by omega
      rw [if_neg hc2, if_neg hc]
  · simp only [hlt, if_false]

/-- Forgetting the recorded accesses, `vector_add_logged` is `vector_add`. -/
theorem vector_add_logged_fst {α : Type} (add : α → α → α) (A B : List α) (N : Int)
    (b bd t : Nat) (s : List α × List Access) :
    (vector_add_logged add A B N b bd t s).map Prod.fst = vector_add add A B N b bd t s.1 := by
  unfold vector_add_logged vector_add vector_add_access
  by_cases hlt : globalIdx b bd t < N
  · simp only [hlt, if_true]
    by_cases hc : 0 ≤ globalIdx b bd t ∧ globalIdx b bd t < (s.1.length : Int)
    · rw [if_pos hc, if_pos hc]
      cases A[(globalIdx b bd t).toNat]? <;> cases B[(globalIdx b bd t).toNat]? <;> rfl
    · rw [if_neg hc, if_neg hc]
      rfl
  · simp only [hlt, if_false]
    rfl

theorem lstep_fst {α : Type} (add : α → α → α) (A B : List α) (N : Int) (k : Nat)
    (s : List α × List Access) :
    (lstep add A B N k s).map Prod.fst = kstep add A B N k s.1 := by
  unfold lstep kstep
  by_cases hlt : (k : Int) < N
  · rw [if_pos hlt, if_pos hlt]
    by_cases hc : k < s.1.length
    · rw [if_pos hc, if_pos hc]
      cases A[k]? <;> cases B[k]? <;> rfl
    · rw [if_neg hc, if_neg hc]
      rfl
  · rw [if_neg hlt, if_neg hlt]
    rfl

/-- After the threads `0, ..., m - 1`, on buffers that may be longer than `N`: the
elements below `min m N` hold the sums, the others are untouched, and the recorded
accesses are those of the threads below `min m N`. -/
theorem lstep_fold {α : Type} (add : α → α → α) (A B C : List α) (N : Int) (log : List Access)
    (hA : N.toNat ≤ A.length) (hB : N.toNat ≤ B.length) (hC : N.toNat ≤ C.length)
    (m : Nat) :
    (List.range m).foldlM (fun acc k => lstep add A B N k acc) (C, log)
      = some ((List.zipWith add (A.take N.toNat) (B.take N.toNat)).take m
                ++ C.drop (min m N.toNat),
              log ++ (List.range (min m N.toNat)).flatMap threadAccesses) := by
  have hZ : (List.zipWith add (A.take N.toNat) (B.take N.toNat)).length = N.toNat := by
    rw [List.length_zipWith, List.length_take, List.length_take]; omega
  induction m with
  | zero => simp
  | succ m ih =>
    rw [List.range_succ, List.foldlM_append, ih]
    simp only [Option.bind_eq_bind, Option.some_bind, List.foldlM_cons, List.foldlM_nil,
      Option.pure_def, Option.bind_some]
    by_cases hlt : (m : Int) < N
    · have hm : m < N.toNat := by omega
      have e1 : min m N.toNat = m := by omega
      have e2 : min (m + 1) N.toNat = m + 1 := by omega
      rw [e1, e2]
      have hlen : m < ((List.zipWith add (A.take N.toNat) (B.take N.toNat)).take m
          ++ C.drop m).length := by
        rw [List.length_append, List.length_take, List.length_drop, hZ]; omega
      have ha : A[m]? = some (A[m]) := List.getElem?_eq_getElem (by omega)
      have hb : B[m]? = some (B[m]) := List.getElem?_eq_getElem (by omega)
      have hz : (List.zipWith add (A.take N.toNat) (B.take N.toNat))[m]?
          = some (add A[m] B[m]) := by
        have ta : (A.take N.toNat)[m]? = some (A[m]) := by
          rw [List.getElem?_take, if_pos hm, ha]
        have tb : (B.take N.toNat)[m]? = some (B[m]) := by
          rw [List.getElem?_take, if_pos hm, hb]
        rw [List.getElem?_zipWith, ta, tb]
      unfold lstep
      simp only
      rw [if_pos hlt, if_pos hlen, ha, hb]
      simp only
      rw [set_fill _ _ _ _ hz (by omega), List.range_succ, List.flatMap_append,
        List.append_assoc]
      simp
    · have hm : N.toNat ≤ m := by omega
      have e1 : min m N.toNat = N.toNat := by omega
      have e2 : min (m + 1) N.toNat = N.toNat := by omega
      unfold lstep
      rw [if_neg hlt, e1, e2,
        List.take_of_length_le (by omega :
          (List.zipWith add (A.take N.toNat) (B.take N.toNat)).length ≤ m),
        List.take_of_length_le (by omega :
          (List.zipWith add (A.take N.toNat) (B.take N.toNat)).length ≤ m + 1)]

/-- The launch of line 107 with the accesses recorded, on buffers that may be longer
than the slice. -/
theorem launch_vector_add_logged {α : Type} (dev : DeviceProps) (add : α → α → α)
    (A B C : List α) (len : Int)
    (hdev : 128 ≤ dev.maxThreadsPerBlock)
    (hA : len.toNat ≤ A.length) (hB : len.toNat ≤ B.length) (hC : len.toNat ≤ C.length)
    (h0 : 0 ≤ len) (h1 : len ≤ 2147483647 - 127) :
    launch dev (vector_add_logged add A B len) (gridX len) (wrapUInt32 ThreadsInBlock) (C, [])
      = some (List.zipWith add (A.take len.toNat) (B.take len.toNat) ++ C.drop len.toNat,
              (List.range len.toNat).flatMap threadAccesses) := by
  have hg := gridX_eq len h0 h1
  have hb : wrapUInt32 ThreadsInBlock = 128 := by decide
  have hZ : (List.zipWith add (A.take len.toNat) (B.take len.toNat)).length = len.toNat := by
    rw [List.length_zipWith, List.length_take, List.length_take]; omega
  rw [hb, launch_eq_fold dev _ (lstep add A B len) (gridX len) 128
    (fun b t hb ht s => vector_add_logged_eq_lstep add A B len b 128 t (by omega) s)]
  split
  · rw [lstep_fold add A B C len [] hA hB hC, List.take_of_length_le (by omega),
      List.nil_append]
    have e : min (gridX len * 128) len.toNat = len.toNat := by omega
    rw [e]
  · rename_i hrej
    have hlen : len = 0 := by
      by_contra hne
      apply hrej
      simp only [launchAccepted, Bool.and_eq_true, decide_eq_true_eq]
      exact ⟨⟨by omega, by omega⟩, hdev⟩
    subst hlen
    simp

/-- The launch of line 107 on buffers that may be longer than the slice: the elements
below `len` of `dC` get the sums, the others are untouched. -/
theorem launch_vector_add_ge {α : Type} (dev : DeviceProps) (add : α → α → α)
    (A B C : List α) (len : Int)
    (hdev : 128 ≤ dev.maxThreadsPerBlock)
    (hA : len.toNat ≤ A.length) (hB : len.toNat ≤ B.length) (hC : len.toNat ≤ C.length)
    (h0 : 0 ≤ len) (h1 : len ≤ 2147483647 - 127) :
    launch dev (vector_add add A B len) (gridX len) (wrapUInt32 ThreadsInBlock) C
      = some (List.zipWith add (A.take len.toNat) (B.take len.toNat) ++ C.drop len.toNat) := by
  have hg := gridX_eq len h0 h1
  have hb : wrapUInt32 ThreadsInBlock = 128 := by decide
  have hlog := launch_vector_add_logged dev add A B C len hdev hA hB hC h0 h1
  rw [hb, launch_eq_fold dev _ (lstep add A B len) (gridX len) 128
    (fun b t hb ht s => vector_add_logged_eq_lstep add A B len b 128 t (by omega) s)] at hlog
  rw [hb, launch_eq_fold dev _ (kstep add A B len) (gridX len) 128
    (fun b t hb ht s => vector_add_eq_kstep add A B len b 128 t (by omega) s)]
  split
  · rename_i hacc
    rw [if_pos hacc] at hlog
    have hproj := foldlM_fst (fun acc k => kstep add A B len k acc)
      (fun acc k => lstep add A B len k acc) (fun s k => lstep_fst add A B len k s)
      (List.range (gridX len * 128)) (C, [])
    rw [hlog] at hproj
    exact hproj.symm
  · rename_i hacc
    rw [if_neg hacc] at hlog
    have e := congrArg (Option.map Prod.fst) hlog
    exact e

end MultiGpu

/-! ## The claims about `multigpu.cpp`: data -/

namespace MultiGpu

open Hip

/-- C1: for every problem size `0 ≤ N` (an `int`), every content of the host arrays and
every device that admits blocks of 128 threads, the dual-device pipeline returns and
the host output satisfies `C[i] = A[i] + B[i]` for every `i < N`, the inputs being
those passed in.  In particular for `N = 1` the share of device 0 has length 0, its grid
size is 0, the run completes and `C[0] = A[0] + B[0]`. -/
theorem pipeline_computes_sum {α : Type} (dev : DeviceProps) (add : α → α → α)
    (junk : Nat → Nat → α) (N : Int) (h : HostBuffers α)
    (hdev : 128 ≤ dev.maxThreadsPerBlock) (h0 : 0 ≤ N) (h1 : N < 2147483648)
    (hA : h.hA.length = N.toNat) (hB : h.hB.length = N.toNat) (hC : h.hC.length = N.toNat) :
    (∃ out, pipeline dev add junk N h = some out ∧ out.hC.length = N.toNat ∧
      ∀ (i : Nat) (hi : i < N.toNat),
        out.hC[i]? = some (add (h.hA.get ⟨i, by omega⟩) (h.hB.get ⟨i, by omega⟩))) ∧
    (dec 1 0).len = 0 ∧ gridX (dec 1 0).len = 0 ∧
    (∀ a b c : α, pipeline dev add junk 1 { hA := [a], hB := [b], hC := [c] }
      = some { hA := [a], hB := [b], hC := [add a b] }) := by
  refine ⟨⟨_, pipeline_eq dev add junk N h hdev h0 h1 hA hB hC, ?_, ?_⟩, by decide, by decide, ?_⟩
  · simp only [List.length_zipWith, hA, hB, Nat.min_self]
  · intro i hi
    have ha : h.hA[i]? = some (h.hA.get ⟨i, by omega⟩) := by
      rw [List.getElem?_eq_getElem (by omega)]; rfl
    have hb : h.hB[i]? = some (h.hB.get ⟨i, by omega⟩) := by
      rw [List.getElem?_eq_getElem (by omega)]; rfl
    simp only [List.getElem?_zipWith, ha, hb]
  · intro a b c
    exact pipeline_eq dev add junk 1 { hA := [a], hB := [b], hC := [c] } hdev (by decide)
      (by decide) rfl rfl rfl

/-- Witness of C1: five elements on a device with 1024 threads per block. -/
theorem pipeline_computes_sum_witness :
    (∃ out, pipeline ⟨1024⟩ (fun a b : Int => a + b) (fun _ _ => 7) 5
        { hA := [1, 2, 3, 4, 5], hB := [10, 20, 30, 40, 50], hC := [0, 0, 0, 0, 0] } = some out ∧
      out.hC.length = (5 : Int).toNat ∧
      ∀ (i : Nat) (hi : i < (5 : Int).toNat),
        out.hC[i]? = some (([1, 2, 3, 4, 5] : List Int).get ⟨i, hi⟩
          + ([10, 20, 30, 40, 50] : List Int).get ⟨i, hi⟩)) ∧
    (dec 1 0).len = 0 ∧ gridX (dec 1 0).len = 0 ∧
    (∀ a b c : Int, pipeline ⟨1024⟩ (fun a b : Int => a + b) (fun _ _ => 7) 1
        { hA := [a], hB := [b], hC := [c] }
      = some { hA := [a], hB := [b], hC := [a + b] }) :=
  pipeline_computes_sum ⟨1024⟩ (fun a b : Int => a + b) (fun _ _ => 7) 5
    { hA := [1, 2, 3, 4, 5], hB := [10, 20, 30, 40, 50], hC := [0, 0, 0, 0, 0] }
    (by decide) (by decide) (by decide) rfl rfl rfl

/-- C2: for every `0 ≤ N` (an `int`) the decomposition of `main` is `dec[0].len = N/2`,
`dec[0].start = 0`, `dec[1].len = N - N/2`, `dec[1].start = dec[0].len`; the lengths sum
to `N`, and the two ranges `[start, start + len)` are contiguous, disjoint and cover
exactly `[0, N)`. -/
theorem decomposition_partitions (N : Int) (h0 : 0 ≤ N) (h1 : N < 2147483648) :
    (dec N 0).len = N / 2 ∧ (dec N 0).start = 0 ∧
    (dec N 1).len = N - N / 2 ∧ (dec N 1).start = (dec N 0).len ∧
    (dec N 0).len + (dec N 1).len = N ∧
    0 ≤ (dec N 0).len ∧ 0 ≤ (dec N 1).len ∧
    (dec N 0).start + (dec N 0).len = (dec N 1).start ∧
    (dec N 1).start + (dec N 1).len = N ∧
    (∀ j : Int, ¬ ((dec N 0).covers j ∧ (dec N 1).covers j)) ∧
    (∀ j : Int, (0 ≤ j ∧ j < N) ↔ ((dec N 0).covers j ∨ (dec N 1).covers j)) := by
  rw [dec_zero N h0 h1, dec_one N h0 h1]
  simp only [Decomp.covers]
  refine ⟨?_, ?_, ?_, ?_, ?_, ?_, ?_, ?_, ?_, ?_, ?_⟩
  all_goals first
    | trivial
    | omega

/-- Witness of C2 at `N = 7`. -/
theorem decomposition_partitions_witness :
    (dec 7 0).len = 7 / 2 ∧ (dec 7 0).start = 0 ∧
    (dec 7 1).len = 7 - 7 / 2 ∧ (dec 7 1).start = (dec 7 0).len ∧
    (dec 7 0).len + (dec 7 1).len = 7 ∧
    0 ≤ (dec 7 0).len ∧ 0 ≤ (dec 7 1).len ∧
    (dec 7 0).start + (dec 7 0).len = (dec 7 1).start ∧
    (dec 7 1).start + (dec 7 1).len = 7 ∧
    (∀ j : Int, ¬ ((dec 7 0).covers j ∧ (dec 7 1).covers j)) ∧
    (∀ j : Int, (0 ≤ j ∧ j < 7) ↔ ((dec 7 0).covers j ∨ (dec 7 1).covers j)) :=
  decomposition_partitions 7 (by decide) (by decide)

/-- C8: for every slice length `0 ≤ len ≤ 2^31 - 128` and every device that admits
blocks of 128 threads, the grid size of line 103 equals `ceil(len / 128)` in 32-bit
arithmetic (no intermediate value leaves the range of `int` when
`len + 128 ≤ 2^31 - 1`), so that `128 * grid ≥ len > 128 * (grid - 1)` when `len > 0`;
the global indices of the launched threads are exactly `0, ..., 128 * grid - 1`, each
once; and `vector_add` launched with that configuration, on buffers that hold at least
`len` elements, reads `A[idx]` and `B[idx]` and writes `C[idx]` for exactly
`idx = 0, ..., len - 1`, each once: the elements below `len` of `C` get the sums, every
element at `len` or above is untouched, and no index `≥ len` is accessed. -/
theorem grid_covers_slice {α : Type} (dev : DeviceProps) (add : α → α → α)
    (A B C : List α) (len : Int)
    (hdev : 128 ≤ dev.maxThreadsPerBlock) (h0 : 0 ≤ len) (h1 : len ≤ 2147483647 - 127)
    (hA : len.toNat ≤ A.length) (hB : len.toNat ≤ B.length) (hC : len.toNat ≤ C.length) :
    (gridX len : Int) = ⌈(len : ℚ) / 128⌉ ∧
    (len + 128 ≤ 2147483647 →
      wrapInt32 (len + ThreadsInBlock) = len + 128 ∧
      wrapInt32 (wrapInt32 (len + ThreadsInBlock) - 1) = len + 127) ∧
    (0 < len → 128 * (gridX len : Int) ≥ len ∧ len > 128 * ((gridX len : Int) - 1)) ∧
    launch dev traceThread (gridX len) (wrapUInt32 ThreadsInBlock) []
      = some ((List.range (128 * gridX len)).map Int.ofNat) ∧
    launch dev (vector_add_logged add A B len) (gridX len) (wrapUInt32 ThreadsInBlock) (C, [])
      = some (List.zipWith add (A.take len.toNat) (B.take len.toNat) ++ C.drop len.toNat,
              (List.range len.toNat).flatMap
                (fun k => [Access.readA k, Access.readB k, Access.writeC k])) ∧
    launch dev (vector_add add A B len) (gridX len) (wrapUInt32 ThreadsInBlock) C
      = some (List.zipWith add (A.take len.toNat) (B.take len.toNat) ++ C.drop len.toNat) ∧
    (∀ (b bd t : Nat) (s : List α × List Access),
      (vector_add_logged add A B len b bd t s).map Prod.fst
        = vector_add add A B len b bd t s.1) ∧
    (∀ b t idx, b < gridX len → t < 128 →
      vector_add_access len b (wrapUInt32 ThreadsInBlock) t = some idx → 0 ≤ idx ∧ idx < len) := by
  have hg := gridX_eq len h0 h1
  have hb : wrapUInt32 ThreadsInBlock = 128 := by decide
  have hacc : 0 < len → launchAccepted dev (gridX len) 128 = true := by
    intro hpos
    simp only [launchAccepted, Bool.and_eq_true, decide_eq_true_eq]
    exact ⟨⟨by omega, by omega⟩, hdev⟩
  have hrej : len = 0 → launchAccepted dev (gridX len) 128 = false := by
    intro hz
    have : gridX len = 0 := by omega
    simp [launchAccepted, this]
  refine ⟨?_, ?_, ?_, ?_, ?_, ?_, ?_, ?_⟩
  · rw [eq_comm, Int.ceil_eq_iff]
    have hz1 : ((gridX len : Int) - 1) * 128 < len := by omega
    have hz2 : len ≤ (gridX len : Int) * 128 := by omega
    constructor
    · rw [lt_div_iff₀ (by norm_num)]
      exact_mod_cast hz1
    · rw [div_le_iff₀ (by norm_num)]
      exact_mod_cast hz2
  · intro hsmall
    unfold wrapInt32 ThreadsInBlock
    omega
  · intro hpos
    omega
  · rw [hb, launch_eq_fold dev traceThread (fun k log => some (log ++ [(k : Int)]))
      (gridX len) 128
      (fun b t hb1 ht s => by
        unfold traceThread
        rw [globalIdx_eq b 128 t (by omega)])]
    by_cases hz : len = 0
    · have hgz : gridX len = 0 := by omega
      rw [hrej hz, hgz]
      rfl
    · rw [hacc (by omega), if_pos rfl, fold_trace (fun k => [(k : Int)]), flatMap_single,
        List.nil_append, Nat.mul_comm]
  · exact launch_vector_add_logged dev add A B C len hdev hA hB hC h0 h1
  · exact launch_vector_add_ge dev add A B C len hdev hA hB hC h0 h1
  · intro b bd t s
    exact vector_add_logged_fst add A B len b bd t s
  · intro b t idx hb1 ht hacc1
    unfold vector_add_access at hacc1
    rw [hb, globalIdx_eq b 128 t (by omega)] at hacc1
    by_cases hlt : ((b * 128 + t : Nat) : Int) < len
    · simp only [hlt, if_true, Option.some.injEq] at hacc1
      omega
    · simp only [hlt, if_false] at hacc1
      exact absurd hacc1 (by simp)

/-- Witness of C8: a slice of 3 elements in buffers of 4 elements, on a device with
1024 threads per block. -/
theorem grid_covers_slice_witness :
    (gridX 3 : Int) = ⌈((3 : Int) : ℚ) / 128⌉ ∧
    ((3 : Int) + 128 ≤ 2147483647 →
      wrapInt32 (3 + ThreadsInBlock) = 3 + 128 ∧
      wrapInt32 (wrapInt32 (3 + ThreadsInBlock) - 1) = 3 + 127) ∧
    ((0 : Int) < 3 → 128 * (gridX 3 : Int) ≥ 3 ∧ (3 : Int) > 128 * ((gridX 3 : Int) - 1)) ∧
    launch ⟨1024⟩ traceThread (gridX 3) (wrapUInt32 ThreadsInBlock) []
      = some ((List.range (128 * gridX 3)).map Int.ofNat) ∧
    launch ⟨1024⟩ (vector_add_logged (fun a b : Int => a + b) [1, 2, 3, 4] [10, 20, 30, 40] 3)
        (gridX 3) (wrapUInt32 ThreadsInBlock) ([0, 0, 0, 9], [])
      = some (List.zipWith (fun a b : Int => a + b)
                (([1, 2, 3, 4] : List Int).take (3 : Int).toNat)
                (([10, 20, 30, 40] : List Int).take (3 : Int).toNat)
                ++ ([0, 0, 0, 9] : List Int).drop (3 : Int).toNat,
              (List.range (3 : Int).toNat).flatMap
                (fun k => [Access.readA k, Access.readB k, Access.writeC k])) ∧
    launch ⟨1024⟩ (vector_add (fun a b : Int => a + b) [1, 2, 3, 4] [10, 20, 30, 40] 3)
        (gridX 3) (wrapUInt32 ThreadsInBlock) [0, 0, 0, 9]
      = some (List.zipWith (fun a b : Int => a + b)
                (([1, 2, 3, 4] : List Int).take (3 : Int).toNat)
                (([10, 20, 30, 40] : List Int).take (3 : Int).toNat)
                ++ ([0, 0, 0, 9] : List Int).drop (3 : Int).toNat) ∧
    (∀ (b bd t : Nat) (s : List Int × List Access),
      (vector_add_logged (fun a b : Int => a + b) [1, 2, 3, 4] [10, 20, 30, 40] 3
          b bd t s).map Prod.fst
        = vector_add (fun a b : Int => a + b) [1, 2, 3, 4] [10, 20, 30, 40] 3 b bd t s.1) ∧
    (∀ b t idx, b < gridX 3 → t < 128 →
      vector_add_access 3 b (wrapUInt32 ThreadsInBlock) t = some idx → 0 ≤ idx ∧ idx < 3) :=
  grid_covers_slice ⟨1024⟩ (fun a b : Int => a + b) [1, 2, 3, 4] [10, 20, 30, 40] [0, 0, 0, 9] 3
    (by decide) (by decide) (by decide) (by decide) (by decide) (by decide)

/-- C4: for every `0 ≤ N` and every initial content of the host buffers the pipeline
leaves `hA` and `hB` unchanged; the step of device `i` changes `hC` only inside
`[dec[i].start, dec[i].start + dec[i].len)`, where it stores the content of `dC[i]`; the
two regions are disjoint, and every index of `hC` below `N` lies in exactly one of them,
so it is written by exactly one device context. -/
theorem pipeline_frame {α : Type} (dev : DeviceProps) (add : α → α → α)
    (junk : Nat → Nat → α) (N : Int) (h : HostBuffers α)
    (hdev : 128 ≤ dev.maxThreadsPerBlock) (h0 : 0 ≤ N) (h1 : N < 2147483648)
    (hA : h.hA.length = N.toNat) (hB : h.hB.length = N.toNat) (hC : h.hC.length = N.toNat) :
    ∃ mid d0 out d1,
      deviceStep dev add N 0 h (allocDevice junk N 0) = some (mid, d0) ∧
      deviceStep dev add N 1 mid (allocDevice junk N 1) = some (out, d1) ∧
      pipeline dev add junk N h = some out ∧
      mid.hA = h.hA ∧ mid.hB = h.hB ∧ out.hA = h.hA ∧ out.hB = h.hB ∧
      (∀ j : Nat, ¬ (dec N 0).covers j → mid.hC[j]? = h.hC[j]?) ∧
      (∀ j : Nat, ¬ (dec N 1).covers j → out.hC[j]? = mid.hC[j]?) ∧
      (∀ j : Nat, (dec N 0).covers j → mid.hC[j]? = d0.dC[j - (dec N 0).start.toNat]?) ∧
      (∀ j : Nat, (dec N 1).covers j → out.hC[j]? = d1.dC[j - (dec N 1).start.toNat]?) ∧
      (∀ j : Int, ¬ ((dec N 0).covers j ∧ (dec N 1).covers j)) ∧
      (∀ j : Int, 0 ≤ j → j < N → ((dec N 0).covers j ∨ (dec N 1).covers j)) := by
  have e0 := dec_zero N h0 h1
  have e1 := dec_one N h0 h1
  obtain ⟨mid, d0, hstep0, mA, mB, mlen, mout, min0⟩ :=
    deviceStep_frame dev add N 0 h (allocDevice junk N 0) hdev
      (by simp only [e0]; omega) (by simp only [e0]; omega) (by simp only [e0]; omega)
      (by simp only [e0]; omega) (by simp only [e0]; omega) (by simp only [e0]; omega)
      (length_malloc _ _) (length_malloc _ _) (length_malloc _ _)
  obtain ⟨out, d1, hstep1, oA, oB, _, oout, oin⟩ :=
    deviceStep_frame dev add N 1 mid (allocDevice junk N 1) hdev
      (by simp only [e1]; omega) (by simp only [e1]; omega) (by simp only [e1]; omega)
      (by rw [mA]; simp only [e1]; omega) (by rw [mB]; simp only [e1]; omega)
      (by rw [mlen]; simp only [e1]; omega)
      (length_malloc _ _) (length_malloc _ _) (length_malloc _ _)
  refine ⟨mid, d0, out, d1, hstep0, hstep1, ?_, mA, mB, by rw [oA, mA], by rw [oB, mB],
    mout, oout, min0, oin, ?_, ?_⟩
  · unfold pipeline
    rw [hstep0]
    simp only
    rw [hstep1]
  · intro j
    simp only [e0, e1, Decomp.covers]
    omega
  · intro j hj0 hjN
    simp only [e0, e1, Decomp.covers]
    omega

/-- Witness of C4: five elements on a device with 1024 threads per block. -/
theorem pipeline_frame_witness :
    ∃ mid d0 out d1,
      deviceStep ⟨1024⟩ (fun a b : Int => a + b) 5 0
          { hA := [1, 2, 3, 4, 5], hB := [10, 20, 30, 40, 50], hC := [0, 0, 0, 0, 0] }
          (allocDevice (fun _ _ => 7) 5 0) = some (mid, d0) ∧
      deviceStep ⟨1024⟩ (fun a b : Int => a + b) 5 1 mid (allocDevice (fun _ _ => 7) 5 1)
        = some (out, d1) ∧
      pipeline ⟨1024⟩ (fun a b : Int => a + b) (fun _ _ => 7) 5
          { hA := [1, 2, 3, 4, 5], hB := [10, 20, 30, 40, 50], hC := [0, 0, 0, 0, 0] }
        = some out ∧
      mid.hA = [1, 2, 3, 4, 5] ∧ mid.hB = [10, 20, 30, 40, 50] ∧
      out.hA = [1, 2, 3, 4, 5] ∧ out.hB = [10, 20, 30, 40, 50] ∧
      (∀ j : Nat, ¬ (dec 5 0).covers j → mid.hC[j]? = ([0, 0, 0, 0, 0] : List Int)[j]?) ∧
      (∀ j : Nat, ¬ (dec 5 1).covers j → out.hC[j]? = mid.hC[j]?) ∧
      (∀ j : Nat, (dec 5 0).covers j → mid.hC[j]? = d0.dC[j - (dec 5 0).start.toNat]?) ∧
      (∀ j : Nat, (dec 5 1).covers j → out.hC[j]? = d1.dC[j - (dec 5 1).start.toNat]?) ∧
      (∀ j : Int, ¬ ((dec 5 0).covers j ∧ (dec 5 1).covers j)) ∧
      (∀ j : Int, 0 ≤ j → j < 5 → ((dec 5 0).covers j ∨ (dec 5 1).covers j)) :=
  pipeline_frame ⟨1024⟩ (fun a b : Int => a + b) (fun _ _ => 7) 5
    { hA := [1, 2, 3, 4, 5], hB := [10, 20, 30, 40, 50], hC := [0, 0, 0, 0, 0] }
    (by decide) (by decide) (by decide) rfl rfl rfl

/-- C7: the pipeline carries no hidden state.  For every `0 ≤ N`, `A` and `B`, the
result does not depend on the initial content of `hC` nor on the content of freshly
allocated device memory, and a second run on the buffers left by the first run returns
the same `A`, `B` and `C` as the first. -/
theorem pipeline_no_hidden_state {α : Type} (dev : DeviceProps) (add : α → α → α)
    (junk junk2 : Nat → Nat → α) (N : Int) (A B C C2 : List α)
    (hdev : 128 ≤ dev.maxThreadsPerBlock) (h0 : 0 ≤ N) (h1 : N < 2147483648)
    (hA : A.length = N.toNat) (hB : B.length = N.toNat)
    (hC : C.length = N.toNat) (hC2 : C2.length = N.toNat) :
    (pipeline dev add junk N { hA := A, hB := B, hC := C }).isSome = true ∧
    pipeline dev add junk N { hA := A, hB := B, hC := C }
      = pipeline dev add junk2 N { hA := A, hB := B, hC := C2 } ∧
    (pipeline dev add junk N { hA := A, hB := B, hC := C }).bind (pipeline dev add junk2 N)
      = pipeline dev add junk N { hA := A, hB := B, hC := C } := by
  have lZ : (List.zipWith add A B).length = N.toNat := by
    rw [List.length_zipWith, hA, hB, Nat.min_self]
  rw [pipeline_eq dev add junk N { hA := A, hB := B, hC := C } hdev h0 h1 hA hB hC,
    pipeline_eq dev add junk2 N { hA := A, hB := B, hC := C2 } hdev h0 h1 hA hB hC2]
  refine ⟨rfl, rfl, ?_⟩
  rw [Option.some_bind]
  exact pipeline_eq dev add junk2 N _ hdev h0 h1 hA hB lZ

/-- Witness of C7: three elements, two different initial contents of `hC` and of the
device memory. -/
theorem pipeline_no_hidden_state_witness :
    (pipeline ⟨1024⟩ (fun a b : Int => a + b) (fun _ _ => 7) 3
      { hA := [1, 2, 3], hB := [10, 20, 30], hC := [0, 0, 0] }).isSome = true ∧
    pipeline ⟨1024⟩ (fun a b : Int => a + b) (fun _ _ => 7) 3
        { hA := [1, 2, 3], hB := [10, 20, 30], hC := [0, 0, 0] }
      = pipeline ⟨1024⟩ (fun a b : Int => a + b) (fun _ _ => 9) 3
        { hA := [1, 2, 3], hB := [10, 20, 30], hC := [5, 6, 7] } ∧
    (pipeline ⟨1024⟩ (fun a b : Int => a + b) (fun _ _ => 7) 3
        { hA := [1, 2, 3], hB := [10, 20, 30], hC := [0, 0, 0] }).bind
        (pipeline ⟨1024⟩ (fun a b : Int => a + b) (fun _ _ => 9) 3)
      = pipeline ⟨1024⟩ (fun a b : Int => a + b) (fun _ _ => 7) 3
        { hA := [1, 2, 3], hB := [10, 20, 30], hC := [0, 0, 0] } :=
  pipeline_no_hidden_state ⟨1024⟩ (fun a b : Int => a + b) (fun _ _ => 7) (fun _ _ => 9) 3
    [1, 2, 3] [10, 20, 30] [0, 0, 0] [5, 6, 7] (by decide) (by decide) (by decide)
    rfl rfl rfl rfl

end MultiGpu

namespace MultiGpu

open Hip

/-- C3: with `N = 100`, `hA` filled with `1.0` and `hB` with `2.0` as `main` does, every
element of `hC` is `3.0` after the pipeline and the error sum that `main` computes is 0.
It holds for every interpretation of `double` arithmetic in which `1.0 + 2.0` is `3.0`
and `(int)((double)0 + (3.0 - 3.0))` is `0`, as in binary64. -/
theorem main_output_all_three {α : Type} (D : DoubleArith α) (dev : DeviceProps)
    (junk : Nat → Nat → α) (hdev : 128 ≤ dev.maxThreadsPerBlock)
    (h12 : D.add (D.lit 1) (D.lit 2) = D.lit 3)
    (hz : D.toInt (D.add (D.ofInt 0) (D.sub (D.lit 3) (D.lit 3))) = 0) :
    mainData D dev junk 100
      = some ({ hA := List.replicate 100 (D.lit 1), hB := List.replicate 100 (D.lit 2),
                hC := List.replicate 100 (D.lit 3) }, 0) := by
  have hN : (100 : Int).toNat = 100 := rfl
  unfold mainData
  rw [initHost_eq D 100 (allocHost junk 100) (length_malloc _ _) (length_malloc _ _)]
  simp only
  rw [pipeline_eq dev D.add junk 100 _ hdev (by decide) (by decide)
    (by simp) (by simp) (length_malloc _ _)]
  simp only [hN, zipWith_replicate, h12]
  have he := errorsum_replicate D 100 (D.lit 3) hz
  rw [hN] at he
  rw [he]

/-- Witness of C3: exact arithmetic, a device with 1024 threads per block. -/
theorem main_output_all_three_witness :
    mainData exactArith ⟨1024⟩ (fun _ _ => 0) 100
      = some ({ hA := List.replicate 100 (exactArith.lit 1),
                hB := List.replicate 100 (exactArith.lit 2),
                hC := List.replicate 100 (exactArith.lit 3) }, 0) :=
  main_output_all_three exactArith ⟨1024⟩ (fun _ _ => 0) (by decide)
    (by norm_num [exactArith]) (by norm_num [exactArith])

/-- The accumulator `errorsum` is an `int`.  On the array `{3.5, 3.5}`, which `main`
never passes to the loop, it truncates `0 + 0.5` to `0` twice and ends at 0, whereas
the sum of `hC[i] - 3.0` is 1. -/
theorem errorsum_truncates :
    errorsum exactArith 2 [7 / 2, 7 / 2] = some 0 ∧
    errorsumSpec exactArith [7 / 2, 7 / 2] = 1 ∧
    exactArith.toInt (errorsumSpec exactArith [7 / 2, 7 / 2]) = 1 ∧
    exactArith.ofInt 0 ≠ errorsumSpec exactArith [7 / 2, 7 / 2] := by
  have e1 : exactArith.toInt (exactArith.add (exactArith.ofInt 0)
      (exactArith.sub (7 / 2) (exactArith.lit 3))) = 0 := by
    norm_num [exactArith]
    rfl
  have e2 : errorsumSpec exactArith [7 / 2, 7 / 2] = 1 := by
    norm_num [errorsumSpec, exactArith]
  refine ⟨?_, e2, ?_, ?_⟩
  · have hN : (2 : Int).toNat = 2 := rfl
    simp only [errorsum, hN, List.range_succ, List.range_zero, List.nil_append,
      List.cons_append, List.foldlM_cons, List.foldlM_nil, List.getElem?_cons_zero,
      List.getElem?_cons_succ, Option.bind_eq_bind, Option.some_bind, Option.pure_def, e1]
  · rw [e2]
    norm_num [exactArith]
  · rw [e2]
    norm_num [exactArith]

end MultiGpu

/-! ## The claims about error handling -/

namespace MultiGpu

open Hip

/-- C5 as amended: every runtime call of `main` that is wrapped in `HIP_ERRCHK` is
checked individually.  In every run with at least two devices in which exactly one such
call (number `k`, at source line `line`) returns a non-success status, the process
writes the error message for `line`, makes no further runtime call and terminates with
the non-zero code `EXIT_FAILURE`; the line `Error sum` is absent when the call is at
line 131 or before, the line `Time elapsed` when it is at line 146 or before. -/
theorem checked_call_failure_is_fatal (devCount : Int) (k line : Nat) (hd : 2 ≤ devCount)
    (hk : callSites[k]? = some (line, true)) :
    (main (fun j => decide (j = k)) devCount).exit = some EXIT_FAILURE ∧
    EXIT_FAILURE ≠ 0 ∧
    (main (fun j => decide (j = k)) devCount).ncalls = k + 1 ∧
    lastCallLine (main (fun j => decide (j = k)) devCount) = some line ∧
    (main (fun j => decide (j = k)) devCount).stdout.getLast? = some (Output.hipError line) ∧
    (line ≤ 131 → Output.errorSum ∉ (main (fun j => decide (j = k)) devCount).stdout) ∧
    (line ≤ 146 → Output.timeElapsed ∉ (main (fun j => decide (j = k)) devCount).stdout) := by
  have hbody := body_checked_failure k (index_callSites k line true hk) (line, true) hk rfl
  have hmain := fatalAt_prependOut _ k line (Output.found devCount) (by simp) (by simp) hbody
  rw [← main_of_two _ devCount hd] at hmain
  obtain ⟨h1, h2, h3, h4, h5, h6⟩ := hmain
  exact ⟨h1, by decide, h2, h3, h4, h5, h6⟩

/-- Witness of C5 as amended: the allocation of line 81 on device 0 (call number 8)
fails. -/
theorem checked_call_failure_is_fatal_witness :
    (main (fun j => decide (j = 8)) 2).exit = some EXIT_FAILURE ∧
    EXIT_FAILURE ≠ 0 ∧
    (main (fun j => decide (j = 8)) 2).ncalls = 8 + 1 ∧
    lastCallLine (main (fun j => decide (j = 8)) 2) = some 81 ∧
    (main (fun j => decide (j = 8)) 2).stdout.getLast? = some (Output.hipError 81) ∧
    (81 ≤ 131 → Output.errorSum ∉ (main (fun j => decide (j = 8)) 2).stdout) ∧
    (81 ≤ 146 → Output.timeElapsed ∉ (main (fun j => decide (j = 8)) 2).stdout) :=
  checked_call_failure_is_fatal 2 8 81 (by decide) (by decide)

/-- C5 as stated fails: when only `hipHostFree` of line 149 (call number 45, wrapped in
`HIP_ERRCHK`) fails, the process exits with `EXIT_FAILURE` after it has written both
the line `Error sum` and the line `Time elapsed`. -/
theorem late_failure_after_report :
    callSites[45]? = some (149, true) ∧
    (main (fun j => decide (j = 45)) 2).exit = some EXIT_FAILURE ∧
    Output.errorSum ∈ (main (fun j => decide (j = 45)) 2).stdout ∧
    Output.timeElapsed ∈ (main (fun j => decide (j = 45)) 2).stdout := by
  decide

/-- The status of `hipSetDevice(i)` at line 80 is dropped: when only that call fails for
device 1 (call number 12), `main` runs to the end, writes both report lines and
returns 0. -/
theorem unchecked_failure_is_ignored :
    callSites[12]? = some (80, false) ∧
    (main (fun j => decide (j = 12)) 2).exit = some 0 ∧
    (main (fun j => decide (j = 12)) 2).ncalls = 48 ∧
    Output.errorSum ∈ (main (fun j => decide (j = 12)) 2).stdout ∧
    Output.timeElapsed ∈ (main (fun j => decide (j = 12)) 2).stdout := by
  decide

end MultiGpu

/-- C6: whenever the device count is smaller than 2, `main` of `multigpu.cpp` and, once
`hipGetDeviceCount` has succeeded, `main` of `p2pcopy.cpp` write `Need at least two
GPUs!` and exit with `EXIT_FAILURE`, the only runtime event being the device-count
query: no allocation, stream creation, copy or kernel launch.  With a device count of
2 or more neither program writes that line, whatever the runtime calls return. -/
theorem need_two_gpus_exit :
    (∀ (fails : Nat → Bool) (devCount : Int), devCount < 2 →
      MultiGpu.main fails devCount
        = { events := [Hip.Event.call Hip.HipCall.hipGetDeviceCount 46], ncalls := 1,
            stdout := [Hip.Output.needTwoGpus], exit := some Hip.EXIT_FAILURE }) ∧
    (∀ (fails : Nat → Bool) (devCount p01 p10 : Int), fails 0 = false → devCount < 2 →
      P2pCopy.main fails devCount p01 p10
        = { events := [Hip.Event.call Hip.HipCall.hipGetDeviceCount 62], ncalls := 1,
            stdout := [Hip.Output.needTwoGpus], exit := some Hip.EXIT_FAILURE }) ∧
    Hip.EXIT_FAILURE ≠ 0 ∧
    (∀ (fails : Nat → Bool) (devCount : Int), 2 ≤ devCount →
      Hip.Output.needTwoGpus ∉ (MultiGpu.main fails devCount).stdout) ∧
    (∀ (fails : Nat → Bool) (devCount p01 p10 : Int), 2 ≤ devCount →
      Hip.Output.needTwoGpus ∉ (P2pCopy.main fails devCount p01 p10).stdout) := by
  refine ⟨?_, ?_, by decide, ?_, ?_⟩
  · intro fails devCount hd
    unfold MultiGpu.main
    rw [if_pos hd]
    rfl
  · intro fails devCount p01 p10 hf hd
    unfold P2pCopy.main
    rw [P2pCopy.count_succeeds fails hf]
    simp only [if_pos hd, List.nil_append]
  · intro fails devCount hd
    rw [MultiGpu.main_of_two fails devCount hd]
    simp only [Hip.prependOut, List.singleton_append, List.mem_cons, not_or,
      Hip.stdout_returnZero]
    refine ⟨by simp, ?_⟩
    exact Hip.exec_no_needTwoGpus fails _ _ (by decide) (by decide)
  · intro fails devCount p01 p10 hd
    have hbody : Hip.Stmt.print Hip.Output.needTwoGpus ∉ P2pCopy.mainBody p01 p10 := by
      unfold P2pCopy.mainBody P2pCopy.copyP2P
      split <;> simp
    unfold P2pCopy.main
    cases hf : fails 0
    · rw [P2pCopy.count_succeeds fails hf]
      simp only [if_neg (by omega : ¬ devCount < 2)]
      rw [Hip.stdout_returnZero]
      exact Hip.exec_no_needTwoGpus fails _ _ hbody (by simp)
    · rw [P2pCopy.count_fails fails hf]
      simp

/-- Witness of C6: one device, every runtime call succeeding; two devices. -/
theorem need_two_gpus_exit_witness :
    MultiGpu.main (fun _ => false) 1
      = { events := [Hip.Event.call Hip.HipCall.hipGetDeviceCount 46], ncalls := 1,
          stdout := [Hip.Output.needTwoGpus], exit := some Hip.EXIT_FAILURE } ∧
    P2pCopy.main (fun _ => false) 1 0 0
      = { events := [Hip.Event.call Hip.HipCall.hipGetDeviceCount 62], ncalls := 1,
          stdout := [Hip.Output.needTwoGpus], exit := some Hip.EXIT_FAILURE } ∧
    Hip.Output.needTwoGpus ∉ (MultiGpu.main (fun _ => false) 2).stdout ∧
    Hip.Output.needTwoGpus ∉ (P2pCopy.main (fun _ => false) 2 1 1).stdout :=
  ⟨need_two_gpus_exit.1 (fun _ => false) 1 (by decide),
   need_two_gpus_exit.2.1 (fun _ => false) 1 0 0 rfl (by decide),
   need_two_gpus_exit.2.2.2.1 (fun _ => false) 2 (by decide),
   need_two_gpus_exit.2.2.2.2 (fun _ => false) 2 1 1 (by decide)⟩

/-! ## The claim about `mpiexample.cpp` -/

namespace MpiExample

open Hip

/-- C9, the code at `N = 131073` with every element `1.0`, on a device that allows 1024
threads per block: the launch `add_kernel<<<blocksize, gridsize>>>` asks for 128 blocks
of 1025 threads and is rejected, so `GPUtoGPUtestManual` and `GPUtoGPUtestHipAware`
leave `1.0` in every element of `dA` of rank 0, whereas `CPUtoCPUtest` leaves `2.0` in
every element of `hA` of rank 0. -/
theorem pingpong_block_size_exceeded :
    gridsize 131073 = 1025 ∧
    launchAccepted ⟨1024⟩ (wrapUInt32 128) (wrapUInt32 (gridsize 131073)) = false ∧
    (CPUtoCPUtest (fun x => exactArith.add x (exactArith.lit 1)) 131073
        (initialWorld (List.replicate 131073 (exactArith.lit 1)))).map (fun w => w.rank0.hA)
      = some (List.replicate 131073 (exactArith.lit 2)) ∧
    (GPUtoGPUtestManual ⟨1024⟩ (fun x => exactArith.add x (exactArith.lit 1)) 131073
        (initialWorld (List.replicate 131073 (exactArith.lit 1)))).map (fun w => w.rank0.dA)
      = some (List.replicate 131073 (exactArith.lit 1)) ∧
    (GPUtoGPUtestHipAware ⟨1024⟩ (fun x => exactArith.add x (exactArith.lit 1)) 131073
        (initialWorld (List.replicate 131073 (exactArith.lit 1)))).map (fun w => w.rank0.dA)
      = some (List.replicate 131073 (exactArith.lit 1)) ∧
    exactArith.lit 2 ≠ exactArith.lit 1 := by
  have h2 : exactArith.add (exactArith.lit 1) (exactArith.lit 1) = exactArith.lit 2 := by
    norm_num [exactArith]
  have hne : exactArith.lit 2 ≠ exactArith.lit 1 := by
    norm_num [exactArith]
  have hlen : (List.replicate 131073 (exactArith.lit 1)).length = (131073 : Int).toNat :=
    List.length_replicate _ _
  have h := pingpong_unchanged_of_large ⟨1024⟩ (fun x => exactArith.add x (exactArith.lit 1))
    131073 (List.replicate 131073 (exactArith.lit 1)) (by decide) (by decide) (by decide) hlen
  rw [List.map_replicate, h2] at h
  exact ⟨by decide, by decide, h.1, h.2.1, h.2.2, hne⟩

end MpiExample
